import Mathlib

/-!
# Journal & Reflection subsystem — shallow embedding

A shallow embedding of the self-improving debugging-journal core of the
repository (SessionManager, Reflector, error-signature canonicalizer, and the
SQL schema's `flaky_tests` view), together with theorems settling the frozen
claims about it.

Modelling conventions:
* timestamps are natural numbers (milliseconds); SQLite's textual datetime
  columns compare lexicographically, which is order-isomorphic to this;
* SQL tables are Lean lists of rows; `UPDATE ... WHERE id = ?` maps over the
  list; `INSERT` appends and bumps an explicit autoincrement counter;
* JavaScript regular expressions used by the canonicalizer are implemented as
  executable scanners over `List Char` with the same (leftmost, greedy,
  non-overlapping, replace-with-one-space) semantics as
  `String.prototype.replace` with a global regex.
-/

namespace Wiki

/-! ## Character classes (`src/sentinel/src/error-utils.ts`)

JavaScript character classes, restricted to the ASCII repertoire that the
repository's error strings use: `\w = [A-Za-z0-9_]`, `\d = [0-9]`,
`\s` is ASCII whitespace (the Unicode space members of `\s` are omitted). -/

def isWordChar (c : Char) : Bool := c.isAlphanum || c == '_'

def isDigitChar (c : Char) : Bool := c.isDigit

def isHexChar (c : Char) : Bool :=
  c.isDigit || ('a' ≤ c && c ≤ 'f') || ('A' ≤ c && c ≤ 'F')

def isSlashChar (c : Char) : Bool := c == '/' || c == '\\'

/-- Characters matched by `[\w.-]` (file-path components). -/
def isPathChar (c : Char) : Bool := isWordChar c || c == '.' || c == '-'

def isSpaceChar (c : Char) : Bool :=
  c == ' ' || c == '\t' || c == '\n' || c == '\r' || c == '\x0b' || c == '\x0c'

def isAsciiAlpha (c : Char) : Bool := c.isAlpha

/-- Length of the longest prefix of `cs` satisfying `p`. -/
def countWhile (p : Char → Bool) (cs : List Char) : Nat :=
  (cs.takeWhile p).length

/-! ## STRIP_PATTERNS matchers

One matcher per entry of `STRIP_PATTERNS` (error-utils.ts lines 13-29).  A
matcher receives the character preceding the current position (`none` at the
start of the text; needed for `\b`) and the remaining text, and returns the
length of the match the JavaScript regex would produce anchored at this
position, or `none`. -/

/-- Greedy parse of the remaining `(?:[\\/][\w.-]+)+` groups.  The current
group's slash has been consumed and `n` of its component characters read;
the result counts the complete groups (each contributing its slash plus its
component characters) and the characters they occupy.  A trailing slash with
an empty component is not consumed. -/
def pathComp : List Char → Nat → Nat × Nat
  | [], n => if n = 0 then (0, 0) else (1, 1 + n)
  | c :: cs, n =>
    if isPathChar c then pathComp cs (n + 1)
    else if n = 0 then (0, 0)
    else if isSlashChar c then
      let r := pathComp cs 0
      (r.1 + 1, r.2 + 1 + n)
    else (1, 1 + n)

/-- Greedy run of `(?:[\\/][\w.-]+)` groups starting at the head: returns
(number of complete groups, total characters consumed). -/
def slashGroups : List Char → Nat × Nat
  | [] => (0, 0)
  | c :: cs => if isSlashChar c then pathComp cs 0 else (0, 0)

/-- `STRIP_PATTERNS[0]`: `(?:[a-zA-Z]:)?(?:[\\/][\w.-]+)+[\\/]([\w.-]+)` —
an optional drive letter followed by at least two slash-separated path
components (the `+` group supplies all but the last, the trailing
`[\\/]([\w.-]+)` the last; greediness makes the match the maximal run of
components). -/
def matchPath (cs : List Char) : Option Nat :=
  let p : Nat × List Char :=
    match cs with
    | c1 :: c2 :: r => if isAsciiAlpha c1 && c2 == ':' then (2, r) else (0, cs)
    | _ => (0, cs)
  let g := slashGroups p.2
  if 2 ≤ g.1 then some (p.1 + g.2) else none

/-- `STRIP_PATTERNS[1]`: `:\d+:\d+` (line and column numbers). -/
def matchLineCol (cs : List Char) : Option Nat :=
  match cs with
  | c :: rest =>
    if c == ':' then
      let d1 := countWhile isDigitChar rest
      if d1 = 0 then none
      else
        match rest.drop d1 with
        | c2 :: rest2 =>
          if c2 == ':' then
            let d2 := countWhile isDigitChar rest2
            if d2 = 0 then none else some (1 + d1 + 1 + d2)
          else none
        | [] => none
    else none
  | [] => none

/-- `STRIP_PATTERNS[2]`: `0x[a-fA-F0-9]{6,}` (memory addresses). -/
def matchHexAddr (cs : List Char) : Option Nat :=
  match cs with
  | c1 :: c2 :: rest =>
    if c1 == '0' && c2 == 'x' then
      let h := countWhile isHexChar rest
      if 6 ≤ h then some (2 + h) else none
    else none
  | _ => none

/-- Exactly `n` hex characters; returns the remainder on success. -/
def hexBlock (n : Nat) (cs : List Char) : Option (List Char) :=
  if (cs.take n).length = n && (cs.take n).all isHexChar then some (cs.drop n)
  else none

def dashThen : List Char → Option (List Char)
  | c :: r => if c == '-' then some r else none
  | [] => none

/-- `STRIP_PATTERNS[3]`: UUIDs (`hex{8}-hex{4}-hex{4}-hex{4}-hex{12}`; the
`i` flag is redundant since the class already contains both cases). -/
def matchUuid (cs : List Char) : Option Nat :=
  (hexBlock 8 cs).bind fun r1 =>
  (dashThen r1).bind fun r2 =>
  (hexBlock 4 r2).bind fun r3 =>
  (dashThen r3).bind fun r4 =>
  (hexBlock 4 r4).bind fun r5 =>
  (dashThen r5).bind fun r6 =>
  (hexBlock 4 r6).bind fun r7 =>
  (dashThen r7).bind fun r8 =>
  (hexBlock 12 r8).map fun _ => 36

/-- `\b` to the left of a word character: text start or a non-word char. -/
def leftBoundaryOk (prev : Option Char) : Bool :=
  match prev with
  | none => true
  | some c => !isWordChar c

/-- `\b` to the right of a word character: text end or a non-word char. -/
def rightBoundaryOk (rest : List Char) : Bool :=
  match rest with
  | [] => true
  | c :: _ => !isWordChar c

/-- `STRIP_PATTERNS[4]`: `\b\d{6,}\b` (timestamps, large ids).  If the
maximal digit run is followed by a word character every shorter candidate
also ends at a word character, so the boundary check on the maximal run is
equivalent to the regex's backtracking search. -/
def matchLongNumber (prev : Option Char) (cs : List Char) : Option Nat :=
  if leftBoundaryOk prev then
    let d := countWhile isDigitChar cs
    if 6 ≤ d && rightBoundaryOk (cs.drop d) then some d else none
  else none

/-- `STRIP_PATTERNS[5]`: `\b[a-fA-F0-9]{16,}\b` (hashes, tokens). -/
def matchLongHex (prev : Option Char) (cs : List Char) : Option Nat :=
  if leftBoundaryOk prev then
    let h := countWhile isHexChar cs
    if 16 ≤ h && rightBoundaryOk (cs.drop h) then some h else none
  else none

/-- `STRIP_PATTERNS[6]`/`[7]`: `"[^"]{20,}"` resp. `'[^']{20,}'` (long quoted
string literals).  `[^q]` cannot cross a quote, so the greedy run stops at
the next quote character, which must exist and yields the match. -/
def matchQuoted (q : Char) (cs : List Char) : Option Nat :=
  match cs with
  | c :: rest =>
    if c == q then
      let m := countWhile (fun d => d != q) rest
      if 20 ≤ m then
        match rest.drop m with
        | d :: _ => if d == q then some (m + 2) else none
        | [] => none
      else none
    else none
  | [] => none

/-- One global pass of `String.replace(pattern, ' ')`: scan left to right,
replace each (non-overlapping, leftmost) match by a single space and resume
after it.  Matching context (`prev`, used by `\b`) always comes from the
original text, exactly as in JavaScript, where all matches are located in the
input string before any replacement happens.  `skip > 0` means the scanner is
inside an already-matched region: the character is dropped and only recorded
as context. -/
def stripGo (m : Option Char → List Char → Option Nat) :
    Nat → Option Char → List Char → List Char
  | _, _, [] => []
  | skip + 1, _, c :: cs => stripGo m skip (some c) cs
  | 0, prev, c :: cs =>
    match m prev (c :: cs) with
    | some k => ' ' :: stripGo m (k - 1) (some c) cs
    | none => c :: stripGo m 0 (some c) cs

def stripScan (m : Option Char → List Char → Option Nat) (cs : List Char) :
    List Char :=
  stripGo m 0 none cs

/-- The eight `STRIP_PATTERNS` substitutions, applied in source order
(each pass runs on the output of the previous one, as the successive
`signature.replace` calls do). -/
def stripPatterns (cs : List Char) : List Char :=
  let s := stripScan (fun _ => matchPath) cs
  let s := stripScan (fun _ => matchLineCol) s
  let s := stripScan (fun _ => matchHexAddr) s
  let s := stripScan (fun _ => matchUuid) s
  let s := stripScan matchLongNumber s
  let s := stripScan matchLongHex s
  let s := stripScan (fun _ => matchQuoted '"') s
  stripScan (fun _ => matchQuoted '\'') s

/-- `replace(/\s+/g, ' ')`: every maximal whitespace run becomes one space
(the flag records being inside a run whose space is already emitted). -/
def collapseGo : Bool → List Char → List Char
  | _, [] => []
  | inRun, c :: cs =>
    if isSpaceChar c then
      if inRun then collapseGo true cs else ' ' :: collapseGo true cs
    else c :: collapseGo false cs

def collapseWs (cs : List Char) : List Char :=
  collapseGo false cs

/-- `String.prototype.trim()` on ASCII text. -/
def trimChars (cs : List Char) : List Char :=
  ((cs.dropWhile isSpaceChar).reverse.dropWhile isSpaceChar).reverse

/-- `rawError.split('\n')[0]`. -/
def takeFirstLine (cs : List Char) : List Char :=
  cs.takeWhile (fun c => c != '\n')

/-- `generateErrorSignature` (error-utils.ts lines 63-98).  The
`ERROR_TYPE_PATTERNS` loop of the source assigns a local `errorType` that is
never used afterwards (dead code), so it has no counterpart here.  The guard
`!rawError` is the empty-string check (the `typeof` disjunct cannot fire for
a string argument). -/
def generateErrorSignature (rawError : String) : String :=
  if rawError = "" then "generic:invalid_error_input"
  else
    let s := trimChars (takeFirstLine rawError.toList)
    let s := stripPatterns s
    let s := (trimChars (collapseWs s)).take 200
    if s.length < 5 then "generic:short_error" else String.mk s

/-! ## Strategy tagging (reflector.ts lines 78-103)

Every `STRATEGY_PATTERNS` regex is an alternation of literal substrings,
except `as\s` (a literal followed by a whitespace character).  The `i` flag
is modelled by lowercasing both the text and the literal. -/

inductive Alt
  | lit (s : String)
  | litWs (s : String)

def lowerList (s : String) : List Char := s.toList.map Char.toLower

/-- Does `pat` occur in `text` immediately followed by a whitespace char? -/
def hasLitWs (pat : List Char) : List Char → Bool
  | [] => false
  | c :: cs =>
    (decide (pat <+: (c :: cs)) &&
      (match (c :: cs).drop pat.length with
       | d :: _ => isSpaceChar d
       | [] => false)) ||
    hasLitWs pat cs

def altMatches (text : List Char) : Alt → Bool
  | .lit s => decide (lowerList s <:+: text)
  | .litWs s => hasLitWs (lowerList s) text

def STRATEGY_PATTERNS : List (List Alt × String) :=
  [([.lit "mock", .lit "reset", .lit "spy", .lit "jest.clear", .lit "afterEach"],
    "mock-lifecycle-fix"),
   ([.lit "cache", .lit "stale", .lit "redis", .lit "invalidat"],
    "cache-invalidation"),
   ([.lit "null", .lit "undefined", .lit "missing", .lit "default", .lit "optional"],
    "defensive-coding"),
   ([.lit "wait", .lit "timeout", .lit "async", .lit "await", .lit "promise", .lit "race"],
    "concurrency-fix"),
   ([.lit "permission", .lit "auth", .lit "role", .lit "access", .lit "deny",
     .lit "allow", .lit "rule"],
    "auth-policy-fix"),
   ([.lit "import", .lit "require", .lit "module", .lit "export", .lit "path"],
    "import-resolution"),
   ([.lit "type", .lit "interface", .lit "typescript", .lit "cast", .litWs "as"],
    "type-fix"),
   ([.lit "config", .lit "env", .lit "environment", .lit "setting", .lit ".env"],
    "config-fix"),
   ([.lit "dependency", .lit "package", .lit "version", .lit "upgrade", .lit "npm",
     .lit "yarn"],
    "dependency-fix"),
   ([.lit "network", .lit "http", .lit "fetch", .lit "api", .lit "endpoint", .lit "cors"],
    "network-fix"),
   ([.lit "database", .lit "query", .lit "sql", .lit "orm", .lit "migration"],
    "database-fix"),
   ([.lit "memory", .lit "leak", .lit "gc", .lit "heap"],
    "memory-fix"),
   ([.lit "state", .lit "redux", .lit "context", .lit "store"],
    "state-management-fix"),
   ([.lit "render", .lit "component", .lit "react", .lit "vue", .lit "dom"],
    "ui-render-fix")]

/-- `extractStrategyTags` (reflector.ts lines 95-103). -/
def extractStrategyTags (text : String) : List String :=
  let lower := lowerList text
  let tags := STRATEGY_PATTERNS.filterMap fun pt =>
    if pt.1.any (altMatches lower) then some pt.2 else none
  if tags = [] then ["general-logic-fix"] else tags

/-! ## Data model (migration 002, `src/unnamed/part_001`)

Rows mirror the SQL schema.  `strategy_stats` (a JSON object) is an
association list in insertion order, `projects_seen` / `source_session_ids`
(JSON arrays) are lists, `approach_tags` (a JSON array of tags) is a list of
strings.  The `troubleshooting_playbooks` row omits the display-only columns
`symptoms`, `root_cause`, `solution_steps`, `code_example` (never read or
written by the modelled core) and has no `total_occurrences` column, exactly
as in the schema. -/

/-- The `details` column of a journal entry.  `raw` is text that
`JSON.parse` rejects (free text such as error logs); `runinfo` is a payload
that parses to a JSON object, carrying the two keys the Reflector's
test-run check reads (`status`, `failed`).  `SessionManager.recordTestRun`
stores `JSON.stringify(run)`, whose object has a `status` key but no
`failed` key (the run shape calls it `failed_tests`), hence
`runinfo (some run.status) none`. -/
inductive Details
  | raw (text : String)
  | runinfo (status : Option String) (failed : Option Int)
deriving DecidableEq

/-- Concatenation value of the `details` column (`errorEntry.details || ''`).
Only `raw` payloads ever reach this in the modelled flows (error-log
entries); the `runinfo` rendering is an approximation of the stored JSON. -/
def Details.text : Details → String
  | .raw s => s
  | .runinfo status _ => "\x7bstatus: " ++ (status.getD "") ++ "\x7d"

def detailsText (d : Option Details) : String :=
  match d with
  | some dd => dd.text
  | none => ""

structure DevSession where
  id : Nat
  project_id : Nat
  start_time : Nat
  end_time : Option Nat
  goal : String
  status : String
  outcome_summary : Option String
  reflection_status : String
  winning_strategy : Option String
  time_to_fix_ms : Option Int
  hypothesis_count : Option Nat
  successful_hypothesis_id : Option Nat
deriving DecidableEq

structure JournalEntry where
  id : Nat
  project_id : Nat
  session_id : Option Nat
  parent_id : Option Nat
  entry_type : String
  timestamp : Nat
  summary : String
  details : Option Details
  git_commit_hash : Option String
  analysis_outcome : Option String
  approach_tags : Option (List String)
deriving DecidableEq

structure TestRun where
  id : Nat
  journal_entry_id : Nat
  status : String
  duration_ms : Option Nat
  total_tests : Option Nat
  passed_tests : Option Nat
  failed_tests : Option Nat
  skipped_tests : Option Nat
  source_file : Option String
deriving DecidableEq

structure TestResult where
  test_run_id : Nat
  test_name : String
  test_file : Option String
  status : String
  duration_ms : Option Nat
  error_message : Option String
  error_signature : Option String
  stdout : Option String
  stderr : Option String
deriving DecidableEq

structure UniversalPattern where
  signature : String
  best_strategy : Option String
  success_count : Nat
  failure_count : Nat
  total_occurrences : Nat
  projects_seen : List Nat
  avg_time_to_fix_ms : Int
  first_seen : Nat
  last_seen : Nat
  strategy_stats : List (String × Nat)
deriving DecidableEq

structure Playbook where
  id : Nat
  error_signature : String
  title : String
  context_summary : String
  success_count : Nat
  failure_count : Nat
  confidence_score : ℚ
  source_session_ids : List Nat
  project_id : Option Nat
  created_at : Nat
  last_used_at : Option Nat
  last_evolved_at : Option Nat
  status : String
deriving DecidableEq

structure UsageLog where
  playbook_id : Nat
  session_id : Option Nat
  was_helpful : Bool
  feedback : Option String
  used_at : Nat
deriving DecidableEq

structure PerfLog where
  session_id : Nat
  hypothesis_count : Nat
  successful_hypothesis_index : Option Nat
  approach_tags_tried : List String
  winning_approach_tag : Option String
  time_to_fix_ms : Int
  error_signature : Option String
  outcome : String
deriving DecidableEq

/-- The durable store: every table owned by the Journal & Session Store,
plus the autoincrement counters of the tables whose row ids are referenced
elsewhere. -/
structure Store where
  sessions : List DevSession
  journal : List JournalEntry
  test_runs : List TestRun
  test_results : List TestResult
  patterns : List UniversalPattern
  playbooks : List Playbook
  usage_log : List UsageLog
  perf_log : List PerfLog
  next_session_id : Nat
  next_journal_id : Nat
  next_test_run_id : Nat
  next_playbook_id : Nat
deriving DecidableEq

/-- 30 days in milliseconds (`datetime('now', '-30 days')`). -/
def thirtyDaysMs : Nat := 30 * 86400000

/-- `Math.round` (ties round toward positive infinity). -/
def jsRound (q : ℚ) : Int := Int.floor (q + 1 / 2)

/-- `[...new Set(xs)]`: deduplicate keeping the first occurrence of each
element, in insertion order (`seen` accumulates the emitted elements). -/
def dedupGo {α} [DecidableEq α] (seen : List α) : List α → List α
  | [] => []
  | a :: as => if a ∈ seen then dedupGo seen as else a :: dedupGo (a :: seen) as

def dedupKeepFirst {α} [DecidableEq α] (l : List α) : List α :=
  dedupGo [] l

/-- Stable insertion: `a` goes immediately before the first element it
compares `le` to, hence after all earlier-inserted equal elements. -/
def insertSorted {α} (le : α → α → Bool) (a : α) : List α → List α
  | [] => [a]
  | b :: bs => if le a b then a :: b :: bs else b :: insertSorted le a bs

/-- Stable sort realizing SQL `ORDER BY`: rows with equal keys keep their
original relative order. -/
def sortByStable {α} (le : α → α → Bool) : List α → List α
  | [] => []
  | a :: as => insertSorted le a (sortByStable le as)

/-! ## Journal & Session Store (`SessionManager`, `src/unnamed/part_004`) -/

/-- `SELECT * FROM dev_sessions WHERE id = ?` (first matching row). -/
def getSession (st : Store) (sessionId : Nat) : Option DevSession :=
  st.sessions.find? (fun s => s.id == sessionId)

/-- `UPDATE dev_sessions SET ... WHERE id = ?`. -/
def updateSession (st : Store) (sessionId : Nat) (f : DevSession → DevSession) :
    Store :=
  { st with sessions := st.sessions.map fun s => if s.id = sessionId then f s else s }

/-- Column values supplied to `addJournalEntry` (`INSERT INTO dev_journal`);
id and timestamp are assigned by the store. -/
structure NewEntry where
  project_id : Nat
  session_id : Option Nat
  parent_id : Option Nat
  entry_type : String
  summary : String
  details : Option Details
  git_commit_hash : Option String
  analysis_outcome : Option String
  approach_tags : Option (List String)

/-- `SessionManager.addJournalEntry`: inserts the row exactly as supplied
(missing optional values stored as NULL) and returns the new row id. -/
def addJournalEntry (st : Store) (e : NewEntry) (now : Nat) : Store × Nat :=
  let id := st.next_journal_id
  ({ st with
      journal := st.journal ++
        [{ id := id, project_id := e.project_id, session_id := e.session_id,
           parent_id := e.parent_id, entry_type := e.entry_type, timestamp := now,
           summary := e.summary, details := e.details,
           git_commit_hash := e.git_commit_hash,
           analysis_outcome := e.analysis_outcome,
           approach_tags := e.approach_tags }],
      next_journal_id := id + 1 },
   id)

/-- `SessionManager.startSession`. -/
def startSession (st : Store) (projectId : Nat) (goal : String) (now : Nat) :
    Store × Nat :=
  let sid := st.next_session_id
  let st1 :=
    { st with
        sessions := st.sessions ++
          [{ id := sid, project_id := projectId, start_time := now, end_time := none,
             goal := goal, status := "IN_PROGRESS", outcome_summary := none,
             reflection_status := "PENDING", winning_strategy := none,
             time_to_fix_ms := none, hypothesis_count := none,
             successful_hypothesis_id := none }],
        next_session_id := sid + 1 }
  let r := addJournalEntry st1
    { project_id := projectId, session_id := some sid, parent_id := none,
      entry_type := "SESSION_START", summary := "Started session: " ++ goal,
      details := some (.raw goal), git_commit_hash := none,
      analysis_outcome := none, approach_tags := none } now
  (r.1, sid)

/-- `SessionManager.logHypothesis`: note that `approach_tags` is populated
at insertion time from the caller-supplied tags. -/
def logHypothesis (st : Store) (projectId sessionId : Nat) (parentId : Option Nat)
    (hypothesis : String) (approachTags : List String) (now : Nat) : Store × Nat :=
  addJournalEntry st
    { project_id := projectId, session_id := some sessionId, parent_id := parentId,
      entry_type := "AI_HYPOTHESIS", summary := hypothesis, details := none,
      git_commit_hash := none, analysis_outcome := none,
      approach_tags := some approachTags } now

/-- `SessionManager.logToolCall` (the JSON-ified arguments are passed as an
opaque rendering). -/
def logToolCall (st : Store) (projectId sessionId parentId : Nat) (tool : String)
    (argsRepr : String) (now : Nat) : Store × Nat :=
  addJournalEntry st
    { project_id := projectId, session_id := some sessionId,
      parent_id := some parentId, entry_type := "AI_TOOL_CALL",
      summary := "Tool: " ++ tool, details := some (.raw argsRepr),
      git_commit_hash := none, analysis_outcome := none, approach_tags := none } now

/-- `SessionManager.logObservation`: `analysis_outcome` is populated at
insertion time when the caller supplies an outcome. -/
def logObservation (st : Store) (projectId sessionId parentId : Nat)
    (observation : String) (outcome : Option String) (now : Nat) : Store × Nat :=
  addJournalEntry st
    { project_id := projectId, session_id := some sessionId,
      parent_id := some parentId, entry_type := "AI_OBSERVATION",
      summary := observation, details := none, git_commit_hash := none,
      analysis_outcome := outcome, approach_tags := none } now

/-- Column values supplied to `recordTestRun` (the `Omit<TestRun, ...>`). -/
structure NewTestRun where
  status : String
  duration_ms : Option Nat
  total_tests : Option Nat
  passed_tests : Option Nat
  failed_tests : Option Nat
  skipped_tests : Option Nat
  source_file : Option String

/-- `SessionManager.recordTestRun`: creates the TEST_RUN journal entry
first — with `analysis_outcome` set at creation to SUCCESS iff the run
status is PASSED, and `details` holding `JSON.stringify(run)` (a JSON
object with a `status` key and no `failed` key) — then the `test_runs`
row; returns the run id. -/
def recordTestRun (st : Store) (projectId : Nat) (sessionId : Option Nat)
    (run : NewTestRun) (now : Nat) : Store × Nat :=
  let r := addJournalEntry st
    { project_id := projectId, session_id := sessionId, parent_id := none,
      entry_type := "TEST_RUN",
      summary := "Test run: " ++ run.status ++ " (" ++
        Nat.repr (run.passed_tests.getD 0) ++ "/" ++
        Nat.repr (run.total_tests.getD 0) ++ " passed)",
      details := some (.runinfo (some run.status) none),
      git_commit_hash := none,
      analysis_outcome := some (if run.status = "PASSED" then "SUCCESS" else "FAILURE"),
      approach_tags := none } now
  let st1 := r.1
  let runId := st1.next_test_run_id
  ({ st1 with
      test_runs := st1.test_runs ++
        [{ id := runId, journal_entry_id := r.2, status := run.status,
           duration_ms := run.duration_ms, total_tests := run.total_tests,
           passed_tests := run.passed_tests, failed_tests := run.failed_tests,
           skipped_tests := run.skipped_tests, source_file := run.source_file }],
      next_test_run_id := runId + 1 },
   runId)

/-- Column values supplied per row to `recordTestResults`. -/
structure NewTestResult where
  test_name : String
  test_file : Option String
  status : String
  duration_ms : Option Nat
  error_message : Option String
  error_signature : Option String
  stdout : Option String
  stderr : Option String

/-- `SessionManager.recordTestResults`. -/
def recordTestResults (st : Store) (testRunId : Nat)
    (results : List NewTestResult) : Store :=
  { st with
      test_results := st.test_results ++ results.map fun r =>
        { test_run_id := testRunId, test_name := r.test_name,
          test_file := r.test_file, status := r.status,
          duration_ms := r.duration_ms, error_message := r.error_message,
          error_signature := r.error_signature, stdout := r.stdout,
          stderr := r.stderr } }

/-- `SELECT * FROM dev_journal WHERE session_id = ? ORDER BY timestamp ASC`.
The sort is stable, so rows with equal timestamps keep insertion order. -/
def getSessionJournal (st : Store) (sessionId : Nat) : List JournalEntry :=
  sortByStable (fun a b => decide (a.timestamp ≤ b.timestamp))
    (st.journal.filter fun e => e.session_id == some sessionId)

/-! ## Reflector (`src/sentinel/src/reflector.ts`) -/

/-- The Reflector's success test on a TEST_RUN entry
(`details.status === 'PASSED' || details.failed === 0` after
`JSON.parse(t.details || '{}')`; a NULL or unparseable payload yields
`false` via the missing keys resp. the catch). -/
def entryPassed (e : JournalEntry) : Bool :=
  match e.details with
  | some (.runinfo status failed) => status == some "PASSED" || failed == some 0
  | _ => false

/-- The Reflector's failure test on a TEST_RUN entry
(`details.status === 'FAILED' || details.failed > 0`). -/
def entryFailed (e : JournalEntry) : Bool :=
  match e.details with
  | some (.runinfo status failed) =>
    status == some "FAILED" ||
      (match failed with | some n => decide (0 < n) | none => false)
  | _ => false

structure SessionAnalysis where
  sessionId : Nat
  success : Bool
  errorSignature : Option String
  winningHypothesis : Option JournalEntry
  losingHypotheses : List JournalEntry
  winningStrategy : Option String
  allStrategiesTried : List String
  timeToFixMs : Int
  hypothesisCount : Nat

/-- First tag of `extractStrategyTags` (`[0]`; the list is never empty by
construction, so the default of the empty case is unreachable). -/
def firstTag (text : String) : String :=
  match extractStrategyTags text with
  | [] => "general-logic-fix"
  | t :: _ => t

/-- `Reflector.analyzeSession` (reflector.ts lines 224-307).
`successfulRun` uses `testRuns.reverse().find(...)`, i.e. the
chronologically **last** passing run.  (`reverse()` also mutates the
`testRuns` array in place, which is irrelevant for the later
`testRuns.some`.)  The winning hypothesis is `filter(...).pop()`, the last
hypothesis strictly before that run. -/
def analyzeSession (st : Store) (sessionId : Nat) (now : Nat) : SessionAnalysis :=
  let entries := getSessionJournal st sessionId
  let hypotheses := entries.filter fun e => e.entry_type == "AI_HYPOTHESIS"
  let testRuns := entries.filter fun e => e.entry_type == "TEST_RUN"
  let successfulRun := testRuns.reverse.find? entryPassed
  let success := successfulRun.isSome
  let errorEntry := entries.find? fun e => e.entry_type == "ERROR_LOG"
  let errorSignature := errorEntry.map fun e =>
    generateErrorSignature (e.summary ++ " " ++ detailsText e.details)
  let wl : Option JournalEntry × List JournalEntry :=
    match successfulRun with
    | some sr =>
      let successTime := sr.timestamp
      let winning := (hypotheses.filter fun h => h.timestamp < successTime).getLast?
      let losing := hypotheses.filter fun h =>
        (match winning with
         | some w => h.id != w.id
         | none => true) &&
        testRuns.any fun t => decide (h.timestamp < t.timestamp) && entryFailed t
      (winning, losing)
    | none => (none, [])
  let allStrategiesTried :=
    dedupKeepFirst (hypotheses.flatMap fun h => extractStrategyTags h.summary)
  let winningStrategy := wl.1.map fun h => firstTag h.summary
  let startTime := match entries.head? with
    | some e => e.timestamp
    | none => 0
  let endTime := match successfulRun with
    | some sr => sr.timestamp
    | none => now
  { sessionId := sessionId, success := success, errorSignature := errorSignature,
    winningHypothesis := wl.1, losingHypotheses := wl.2,
    winningStrategy := winningStrategy, allStrategiesTried := allStrategiesTried,
    timeToFixMs := (endTime : Int) - (startTime : Int),
    hypothesisCount := hypotheses.length }

structure PatternUpdate where
  signature : String
  strategy : String
  wasSuccess : Bool
  projectId : Nat
  timeToFixMs : Int

/-- `strategyStats[strategy] = (strategyStats[strategy] || 0) + 1` on a JSON
object in key-insertion order. -/
def bumpAssoc : List (String × Nat) → String → List (String × Nat)
  | [], k => [(k, 1)]
  | (k', v) :: rest, k =>
    if k' = k then (k', v + 1) :: rest else (k', v) :: bumpAssoc rest k

/-- `Object.entries(stats).sort(([,a],[,b]) => b - a)[0]` — the stable
descending sort makes this the entry with the maximal count, earliest
insertion first among ties. -/
def argmaxEntry : List (String × Nat) → Option (String × Nat)
  | [] => none
  | e :: rest =>
    match argmaxEntry rest with
    | none => some e
    | some m => if e.2 ≥ m.2 then some e else some m

/-- `Reflector.reinforcePattern` (reflector.ts lines 316-386). -/
def reinforcePattern (st : Store) (u : PatternUpdate) (now : Nat) : Store :=
  match st.patterns.find? (fun p => p.signature == u.signature) with
  | some existing =>
    let strategyStats := bumpAssoc existing.strategy_stats u.strategy
    let projectsSeen :=
      if u.projectId ∈ existing.projects_seen then existing.projects_seen
      else existing.projects_seen ++ [u.projectId]
    let totalOccurrences := existing.total_occurrences + 1
    let newAvgTime := jsRound
      (((existing.avg_time_to_fix_ms * existing.total_occurrences + u.timeToFixMs : Int) : ℚ)
        / (totalOccurrences : ℚ))
    let bestStrategy :=
      match argmaxEntry strategyStats with
      | some m => m.1
      | none => u.strategy
    { st with
        patterns := st.patterns.map fun (p : UniversalPattern) =>
          if p.signature = u.signature then
            { p with
                success_count := p.success_count + (if u.wasSuccess then 1 else 0),
                failure_count := p.failure_count + (if u.wasSuccess then 0 else 1),
                total_occurrences := p.total_occurrences + 1,
                best_strategy := some bestStrategy,
                strategy_stats := strategyStats,
                projects_seen := projectsSeen,
                avg_time_to_fix_ms := newAvgTime,
                last_seen := now }
          else p }
  | none =>
    { st with
        patterns := st.patterns ++
          [{ signature := u.signature, best_strategy := some u.strategy,
             success_count := if u.wasSuccess then 1 else 0,
             failure_count := if u.wasSuccess then 0 else 1,
             total_occurrences := 1, projects_seen := [u.projectId],
             avg_time_to_fix_ms := u.timeToFixMs, first_seen := now,
             last_seen := now, strategy_stats := [(u.strategy, 1)] }] }

/-- The per-losing-hypothesis update of `tagHypotheses`. -/
def tagLoser (acc : Store) (loser : JournalEntry) : Store :=
  { acc with
      journal := acc.journal.map fun e =>
        if e.id = loser.id then
          { e with analysis_outcome := some "FAILURE",
                   approach_tags := some (extractStrategyTags loser.summary) }
        else e }

/-- `Reflector.tagHypotheses` (reflector.ts lines 391-413): the one place
journal entries are mutated after creation, writing `analysis_outcome`
and `approach_tags` on the winning and losing hypotheses. -/
def tagHypotheses (st : Store) (analysis : SessionAnalysis) : Store :=
  let st1 :=
    match analysis.winningHypothesis with
    | some w =>
      { st with
          journal := st.journal.map fun e =>
            if e.id = w.id then
              { e with analysis_outcome := some "SUCCESS",
                       approach_tags := some (extractStrategyTags w.summary) }
            else e }
    | none => st
  analysis.losingHypotheses.foldl tagLoser st1

/-- `Reflector.logAIPerformance` (reflector.ts lines 418-439). -/
def logAIPerformance (st : Store) (analysis : SessionAnalysis)
    (session : DevSession) : Store :=
  let winningIndex :=
    if analysis.winningHypothesis.isSome then
      some (analysis.losingHypotheses.length + 1)
    else none
  { st with
      perf_log := st.perf_log ++
        [{ session_id := session.id, hypothesis_count := analysis.hypothesisCount,
           successful_hypothesis_index := winningIndex,
           approach_tags_tried := analysis.allStrategiesTried,
           winning_approach_tag := analysis.winningStrategy,
           time_to_fix_ms := analysis.timeToFixMs,
           error_signature := analysis.errorSignature,
           outcome := if analysis.success then "FIXED" else "ABANDONED" }] }

/-- `Reflector.markSessionAnalyzed` (reflector.ts lines 444-460): writes
`successful_hypothesis_id` from the timestamp-inferred winner (or NULL),
unconditionally. -/
def markSessionAnalyzed (st : Store) (sessionId : Nat)
    (analysis : SessionAnalysis) : Store :=
  updateSession st sessionId fun s =>
    { s with
        reflection_status := "ANALYZED",
        winning_strategy := analysis.winningStrategy,
        time_to_fix_ms := some analysis.timeToFixMs,
        hypothesis_count := some analysis.hypothesisCount,
        successful_hypothesis_id := analysis.winningHypothesis.map (fun h => h.id) }

/-- The playbook-row effect of `Reflector.evolvePlaybook` (reflector.ts
lines 499-533): increment the matching counter (touching the usage
timestamps), then recompute the confidence from the updated counters. -/
def evolveRow (p : Playbook) (wasHelpful : Bool) (now : Nat) : Playbook :=
  let p1 :=
    if wasHelpful then
      { p with success_count := p.success_count + 1,
               last_used_at := some now, last_evolved_at := some now }
    else
      { p with failure_count := p.failure_count + 1,
               last_used_at := some now, last_evolved_at := some now }
  { p1 with
      confidence_score :=
        ((p1.success_count : ℚ) + 1) /
          ((p1.success_count : ℚ) + (p1.failure_count : ℚ) + 2) }

/-- `Reflector.evolvePlaybook`: logs usage, then applies `evolveRow` to the
row with the given id. -/
def evolvePlaybook (st : Store) (playbookId : Nat) (wasHelpful : Bool)
    (sessionId : Option Nat) (now : Nat) : Store :=
  let st1 : Store :=
    { st with
        usage_log := st.usage_log ++
          [{ playbook_id := playbookId, session_id := sessionId,
             was_helpful := wasHelpful, feedback := none, used_at := now }] }
  { st1 with
      playbooks := st1.playbooks.map fun p =>
        if p.id = playbookId then evolveRow p wasHelpful now else p }

/-- `Reflector.createPlaybook` (reflector.ts lines 538-562): inserts a DRAFT
playbook with confidence 0.6 and success_count 1 (failure_count takes the
schema default 0). -/
def createPlaybook (st : Store) (analysis : SessionAnalysis)
    (session : DevSession) (pat : UniversalPattern) (now : Nat) : Store :=
  let sig := analysis.errorSignature.getD ""
  let title := "Fixing: " ++ String.mk (sig.toList.take 50) ++ "..."
  let context :=
    "Error pattern seen " ++ Nat.repr pat.total_occurrences ++ " times across " ++
      Nat.repr pat.projects_seen.length ++ " projects. Best approach: " ++
      (pat.best_strategy.getD "null")
  let id := st.next_playbook_id
  { st with
      playbooks := st.playbooks ++
        [{ id := id, error_signature := sig, title := title,
           context_summary := context, success_count := 1, failure_count := 0,
           confidence_score := 3 / 5, source_session_ids := [session.id],
           project_id := some session.project_id, created_at := now,
           last_used_at := none, last_evolved_at := none, status := "DRAFT" }],
      next_playbook_id := id + 1 }

/-- `Reflector.considerPlaybookUpdate` (reflector.ts lines 469-493). -/
def considerPlaybookUpdate (st : Store) (analysis : SessionAnalysis)
    (session : DevSession) (now : Nat) : Store :=
  match analysis.errorSignature, analysis.winningStrategy with
  | some sig, some _ =>
    match st.playbooks.find? (fun p => p.error_signature == sig) with
    | some existing => evolvePlaybook st existing.id true (some session.id) now
    | none =>
      match st.patterns.find? (fun p => p.signature == sig) with
      | some pat =>
        if 2 ≤ pat.success_count then createPlaybook st analysis session pat now
        else st
      | none => st
  | _, _ => st

/-- The gated knowledge-update block of `reflectOnSession` (reflector.ts
lines 145-164): when the analysis succeeded with a winning strategy,
reinforce the pattern (if there is a signature), tag the hypotheses and log
AI performance; otherwise leave the store untouched. -/
def knowledgeUpdate (st : Store) (analysis : SessionAnalysis)
    (session : DevSession) (now : Nat) : Store :=
  match analysis.success, analysis.winningStrategy with
  | true, some ws =>
    let sta :=
      match analysis.errorSignature with
      | some sig =>
        reinforcePattern st
          { signature := sig, strategy := ws, wasSuccess := true,
            projectId := session.project_id,
            timeToFixMs := analysis.timeToFixMs } now
      | none => st
    let stb := tagHypotheses sta analysis
    logAIPerformance stb analysis session
  | _, _ => st

/-- `Reflector.reflectOnSession` (reflector.ts lines 124-175).  A missing
session and an already-ANALYZED session both return before any write.
The `fixEntryId` argument that `SessionManager.endSession` passes has no
counterpart: the function's signature accepts only the session id, so the
extra argument is dropped. -/
def reflectOnSession (st : Store) (sessionId : Nat) (now : Nat) : Store :=
  match getSession st sessionId with
  | none => st
  | some session =>
    if session.reflection_status = "ANALYZED" then st
    else
      let analysis := analyzeSession st sessionId now
      let st1 := knowledgeUpdate st analysis session now
      let st2 := markSessionAnalyzed st1 sessionId analysis
      match analysis.success, analysis.errorSignature with
      | true, some _ => considerPlaybookUpdate st2 analysis session now
      | _, _ => st2

/-- `Reflector.reflectOnPendingSessions`: the pending list is read once
(COMPLETED sessions with PENDING reflection, ordered by end time), then each
is reflected in turn. -/
def reflectOnPendingSessions (st : Store) (now : Nat) : Store :=
  let pending :=
    (sortByStable (fun a b => decide (a.end_time.getD 0 ≤ b.end_time.getD 0))
      (st.sessions.filter fun s =>
        s.status == "COMPLETED" && s.reflection_status == "PENDING")).map (fun s => s.id)
  pending.foldl (fun acc sid => reflectOnSession acc sid now) st

/-- The per-row condition and update of `decayStalePlaybooks`: an ACTIVE
playbook whose `last_used_at` is older than 30 days has its confidence
multiplied by 0.995.  A NULL `last_used_at` never satisfies the SQL
comparison. -/
def decayRow (now : Nat) (p : Playbook) : Playbook :=
  if p.status == "ACTIVE" &&
      (match p.last_used_at with
       | some t => decide (t < now - thirtyDaysMs)
       | none => false) then
    { p with confidence_score := p.confidence_score * (199 / 200) }
  else p

/-- `Reflector.decayStalePlaybooks` (reflector.ts lines 571-582): every
invocation applies `decayRow` to every playbook row. -/
def decayStalePlaybooks (st : Store) (now : Nat) : Store :=
  { st with playbooks := st.playbooks.map (decayRow now) }

/-- `Reflector.archiveLowConfidencePlaybooks` (reflector.ts lines 587-599).
Its UPDATE statement filters on `total_occurrences >= 5`, but the
`troubleshooting_playbooks` table has no `total_occurrences` column
(migration 002), so preparing the statement raises and no row is ever
modified; the store content is unchanged. -/
def archiveLowConfidencePlaybooks (st : Store) : Store := st

/-- `Reflector.runMaintenanceCycle` (reflector.ts lines 201-212): reflect on
pending sessions, decay stale playbooks, then the (failing) archive step;
`updatePatternStats` only logs. -/
def runMaintenanceCycle (st : Store) (now : Nat) : Store :=
  archiveLowConfidencePlaybooks (decayStalePlaybooks (reflectOnPendingSessions st now) now)

/-- `SessionManager.endSession` (`src/unnamed/part_004` lines 140-191):
`none` models the thrown NotFound.  When a `fixEntryId` is supplied the
session row is updated with it; reflection is then triggered for COMPLETED
outcomes — `reflectOnSession(sessionId, fixEntryId)` at the call site, whose
second argument the Reflector does not accept (see `reflectOnSession`). -/
def endSession (st : Store) (sessionId : Nat) (outcome : String)
    (summary : Option String) (fixEntryId : Option Nat) (now : Nat) :
    Option Store :=
  match getSession st sessionId with
  | none => none
  | some session =>
    let st1 := updateSession st sessionId fun s =>
      match fixEntryId with
      | some f =>
        { s with end_time := some now, status := outcome,
                 outcome_summary := summary, successful_hypothesis_id := some f }
      | none =>
        { s with end_time := some now, status := outcome,
                 outcome_summary := summary }
    let r := addJournalEntry st1
      { project_id := session.project_id, session_id := some sessionId,
        parent_id := none, entry_type := "SESSION_END",
        summary := "Session " ++ outcome.toLower ++ ": " ++ (summary.getD "No summary"),
        details := some (.raw (summary.getD "")), git_commit_hash := none,
        analysis_outcome := none, approach_tags := none } now
    some (if outcome = "COMPLETED" then reflectOnSession r.1 sessionId now else r.1)

/-- `SessionManager.recordPlaybookUsage`: inserts a usage row and then calls
`Reflector.evolvePlaybook` (which inserts a second usage row itself). -/
def recordPlaybookUsage (st : Store) (playbookId : Nat) (sessionId : Option Nat)
    (wasHelpful : Bool) (feedback : Option String) (now : Nat) : Store :=
  let st1 :=
    { st with
        usage_log := st.usage_log ++
          [{ playbook_id := playbookId, session_id := sessionId,
             was_helpful := wasHelpful, feedback := feedback, used_at := now }] }
  evolvePlaybook st1 playbookId wasHelpful sessionId now

/-- SQLite `LIKE '%chunk%'` (ASCII case-insensitive containment). -/
def likeContains (hay chunk : String) : Bool :=
  decide (lowerList chunk <:+: lowerList hay)

/-- `SessionManager.findPlaybooks` (`src/unnamed/part_004` lines 437-465),
returning full playbook rows (the source projects id, title,
confidence_score and solution_steps for display).  Both the exact branch
and the fuzzy fallback restrict to `status = 'ACTIVE'`.  The fallback joins
every ACTIVE playbook against every pattern whose `best_strategy` is
non-NULL and whose signature contains the first 50 signature characters,
so each playbook row appears once per matching pattern. -/
def findPlaybooks (st : Store) (errorSignature : String) (limit : Nat) :
    List Playbook :=
  let exact :=
    (sortByStable (fun a b => decide (b.confidence_score ≤ a.confidence_score))
      (st.playbooks.filter fun p =>
        p.error_signature == errorSignature && p.status == "ACTIVE")).take limit
  if exact ≠ [] then exact
  else
    let pats := st.patterns.filter fun up =>
      up.best_strategy.isSome &&
        likeContains up.signature (String.mk (errorSignature.toList.take 50))
    let joined :=
      ((st.playbooks.filter fun p => p.status == "ACTIVE").product pats).map
        (fun pr => pr.1)
    (sortByStable (fun a b => decide (b.confidence_score ≤ a.confidence_score))
      joined).take limit

/-! ## The `flaky_tests` view (migration 002, lines 218-233) -/

/-- SQLite `ROUND(x, 1)` on the nonnegative values arising here. -/
def sqliteRound1 (q : ℚ) : ℚ := (Int.floor (10 * q + 1 / 2) : ℚ) / 10

structure FlakyRow where
  test_name : String
  test_file : Option String
  total_runs : Nat
  passes : Nat
  failures : Nat
  flakiness_pct : ℚ
  last_run : Nat
deriving DecidableEq

/-- The join `test_results ⋈ test_runs ⋈ dev_journal`, pairing each result
with its journal timestamp (row ids are unique, so `find?` realizes the
join; rows without a matching parent are dropped as by an inner join). -/
def joinedResults (st : Store) : List (TestResult × Nat) :=
  st.test_results.filterMap fun tr =>
    (st.test_runs.find? fun run => run.id == tr.test_run_id).bind fun run =>
      (st.journal.find? fun dj => dj.id == run.journal_entry_id).map fun dj =>
        (tr, dj.timestamp)

/-- The rows of the join inside the trailing 30-day window
(`dj.timestamp > datetime('now', '-30 days')`). -/
def windowedResults (st : Store) (now : Nat) : List (TestResult × Nat) :=
  (joinedResults st).filter fun rt => decide (now - thirtyDaysMs < rt.2)

/-- One `GROUP BY tr.test_name, tr.test_file` group of the window. -/
def flakyGroup (st : Store) (now : Nat) (name : String) (file : Option String) :
    List (TestResult × Nat) :=
  (windowedResults st now).filter fun rt =>
    rt.1.test_name == name && rt.1.test_file == file

/-- The `flaky_tests` view: per (test_name, test_file) group over the
trailing 30-day window, keep groups with at least one PASSED and at least
one FAILED row; `flakiness_pct = ROUND(100.0 * failures / COUNT(*), 1)`
divides by **all** rows of the group (including SKIPPED and ERROR), and the
result is ordered by flakiness descending. -/
def flaky_tests (st : Store) (now : Nat) : List FlakyRow :=
  let windowed := windowedResults st now
  let keys := dedupKeepFirst (windowed.map fun rt => (rt.1.test_name, rt.1.test_file))
  let rows := keys.filterMap fun k =>
    let grp := flakyGroup st now k.1 k.2
    let passes := grp.countP fun rt => rt.1.status == "PASSED"
    let failures := grp.countP fun rt => rt.1.status == "FAILED"
    if 0 < passes ∧ 0 < failures then
      some { test_name := k.1, test_file := k.2, total_runs := grp.length,
             passes := passes, failures := failures,
             flakiness_pct := sqliteRound1 ((100 * failures : ℚ) / (grp.length : ℚ)),
             last_run := grp.foldl (fun m rt => max m rt.2) 0 }
    else none
  sortByStable (fun a b => decide (b.flakiness_pct ≤ a.flakiness_pct)) rows

/-- `SessionManager.getFlakyTests`: `SELECT * FROM flaky_tests LIMIT ?`. -/
def getFlakyTests (st : Store) (now : Nat) (limit : Nat) : List FlakyRow :=
  (flaky_tests st now).take limit

/-! ## The operations of this core

Everything in the modelled core that can mutate the store, used to state
frame properties ("no operation in this core ever ..."). -/

inductive WikiOp
  | opStartSession (projectId : Nat) (goal : String)
  | opEndSession (sessionId : Nat) (outcome : String) (summary : Option String)
      (fixEntryId : Option Nat)
  | opAddJournalEntry (e : NewEntry)
  | opLogHypothesis (projectId sessionId : Nat) (parentId : Option Nat)
      (hypothesis : String) (tags : List String)
  | opLogToolCall (projectId sessionId parentId : Nat) (tool argsRepr : String)
  | opLogObservation (projectId sessionId parentId : Nat) (observation : String)
      (outcome : Option String)
  | opRecordTestRun (projectId : Nat) (sessionId : Option Nat) (run : NewTestRun)
  | opRecordTestResults (runId : Nat) (results : List NewTestResult)
  | opRecordPlaybookUsage (playbookId : Nat) (sessionId : Option Nat)
      (wasHelpful : Bool) (feedback : Option String)
  | opReflectOnSession (sessionId : Nat)
  | opReflectOnPending
  | opRunMaintenance

/-- Apply one operation of the core.  A failing `endSession` (NotFound
throws before any write) leaves the store unchanged. -/
def applyOp (st : Store) (op : WikiOp) (now : Nat) : Store :=
  match op with
  | .opStartSession pid goal => (startSession st pid goal now).1
  | .opEndSession sid outcome summary fixEntryId =>
    (endSession st sid outcome summary fixEntryId now).getD st
  | .opAddJournalEntry e => (addJournalEntry st e now).1
  | .opLogHypothesis pid sid parent hyp tags =>
    (logHypothesis st pid sid parent hyp tags now).1
  | .opLogToolCall pid sid parent tool argsRepr =>
    (logToolCall st pid sid parent tool argsRepr now).1
  | .opLogObservation pid sid parent obs outcome =>
    (logObservation st pid sid parent obs outcome now).1
  | .opRecordTestRun pid sid run => (recordTestRun st pid sid run now).1
  | .opRecordTestResults runId results => recordTestResults st runId results
  | .opRecordPlaybookUsage pb sid helpful feedback =>
    recordPlaybookUsage st pb sid helpful feedback now
  | .opReflectOnSession sid => reflectOnSession st sid now
  | .opReflectOnPending => reflectOnPendingSessions st now
  | .opRunMaintenance => runMaintenanceCycle st now

/-! ## Concrete stores used by counterexamples and witnesses -/

def emptyStore : Store :=
  { sessions := [], journal := [], test_runs := [], test_results := [],
    patterns := [], playbooks := [], usage_log := [], perf_log := [],
    next_session_id := 1, next_journal_id := 1, next_test_run_id := 1,
    next_playbook_id := 1 }

/-- A journal entry of session 1 / project 1 (row-building helper). -/
def exEntry (id ts : Nat) (ty summary : String) (details : Option Details) :
    JournalEntry :=
  { id := id, project_id := 1, session_id := some 1, parent_id := none,
    entry_type := ty, timestamp := ts, summary := summary, details := details,
    git_commit_hash := none, analysis_outcome := none, approach_tags := none }

/-- The `details` payload `recordTestRun` stores for a passing run. -/
def passedDetails : Option Details := some (.runinfo (some "PASSED") none)

def failedDetails : Option Details := some (.runinfo (some "FAILED") none)

/-- A completed, not-yet-analyzed session. -/
def exSession1 : DevSession :=
  { id := 1, project_id := 1, start_time := 0, end_time := some 50,
    goal := "fix the flaky auth test", status := "COMPLETED",
    outcome_summary := none, reflection_status := "PENDING",
    winning_strategy := none, time_to_fix_ms := none, hypothesis_count := none,
    successful_hypothesis_id := none }

/-- C1: two passing test runs with a hypothesis between them.  The analysis
selects the last hypothesis before the *last* passing run (entry 3), while
the claim designates the last hypothesis before the *first* passing run
(entry 1). -/
def ex1Store : Store :=
  { emptyStore with
      sessions := [exSession1],
      journal :=
        [exEntry 1 10 "AI_HYPOTHESIS" "check timeout config" none,
         exEntry 2 20 "TEST_RUN" "Test run: PASSED (10/10 passed)" passedDetails,
         exEntry 3 30 "AI_HYPOTHESIS" "clear the redis cache" none,
         exEntry 4 40 "TEST_RUN" "Test run: PASSED (10/10 passed)" passedDetails],
      next_session_id := 2, next_journal_id := 5 }

/-- C2: an in-progress session with one hypothesis (entry 2), a passing run
(entry 3) and a NOTE (entry 4) that the caller will explicitly tag as the
fix when ending the session. -/
def ex2Store : Store :=
  { emptyStore with
      sessions := [{ exSession1 with end_time := none, status := "IN_PROGRESS" }],
      journal :=
        [exEntry 1 0 "SESSION_START" "Started session: fix the flaky auth test"
           (some (.raw "fix the flaky auth test")),
         exEntry 2 10 "AI_HYPOTHESIS" "increase timeout for auth token" none,
         exEntry 3 20 "TEST_RUN" "Test run: PASSED (10/10 passed)" passedDetails,
         exEntry 4 30 "NOTE" "the actual fix entry" none],
      next_session_id := 2, next_journal_id := 5 }

/-- C3: one in-window test run whose results for one test are
PASSED, FAILED and SKIPPED — flaky, with 1 failure out of 3 rows. -/
def ex3Result (status : String) : TestResult :=
  { test_run_id := 1, test_name := "login works", test_file := some "auth.test.ts",
    status := status, duration_ms := none, error_message := none,
    error_signature := none, stdout := none, stderr := none }

def ex3Store : Store :=
  { emptyStore with
      journal := [exEntry 1 100 "TEST_RUN" "Test run: FAILED (1/3 passed)" failedDetails],
      test_runs :=
        [{ id := 1, journal_entry_id := 1, status := "FAILED", duration_ms := none,
           total_tests := some 3, passed_tests := some 1, failed_tests := some 1,
           skipped_tests := some 1, source_file := none }],
      test_results := [ex3Result "PASSED", ex3Result "FAILED", ex3Result "SKIPPED"],
      next_journal_id := 2, next_test_run_id := 2 }

/-- C7: an ACTIVE playbook last used at time 0, examined 40 days later. -/
def ex7Playbook : Playbook :=
  { id := 1, error_signature := "Error: boom", title := "Fixing: Error: boom...",
    context_summary := "ctx", success_count := 1, failure_count := 0,
    confidence_score := 3 / 5, source_session_ids := [1], project_id := some 1,
    created_at := 0, last_used_at := some 0, last_evolved_at := none,
    status := "ACTIVE" }

def ex7Store : Store :=
  { emptyStore with playbooks := [ex7Playbook], next_playbook_id := 2 }

/-- 40 days, in milliseconds. -/
def fortyDaysMs : Nat := 40 * 86400000

/-- C8: a pattern with two accumulated successes and no playbook. -/
def ex8Pattern : UniversalPattern :=
  { signature := "Error: boom", best_strategy := some "cache-invalidation",
    success_count := 2, failure_count := 0, total_occurrences := 2,
    projects_seen := [1], avg_time_to_fix_ms := 1000, first_seen := 0,
    last_seen := 40, strategy_stats := [("cache-invalidation", 2)] }

def ex8Store : Store :=
  { emptyStore with patterns := [ex8Pattern] }

def ex8Analysis : SessionAnalysis :=
  { sessionId := 1, success := true, errorSignature := some "Error: boom",
    winningHypothesis := none, losingHypotheses := [],
    winningStrategy := some "cache-invalidation", allStrategiesTried := [],
    timeToFixMs := 40, hypothesisCount := 1 }

/-- C9: an already-analyzed session. -/
def ex9Store : Store :=
  { emptyStore with
      sessions := [{ exSession1 with reflection_status := "ANALYZED" }],
      journal := [exEntry 1 10 "AI_HYPOTHESIS" "check timeout config" none],
      next_session_id := 2, next_journal_id := 2 }

/-- C10: one ACTIVE and one DRAFT playbook sharing a signature prefix. -/
def ex10Store : Store :=
  { emptyStore with
      playbooks :=
        [ex7Playbook,
         { ex7Playbook with id := 2, error_signature := "Error: other", status := "DRAFT" }],
      next_playbook_id := 3 }

/-! ## Claim-side auxiliary definitions -/

/-- A sequence of usage-feedback events applied to one playbook row
(`true` = helpful). -/
def evolveSeq (p : Playbook) (now : Nat) (evs : List Bool) : Playbook :=
  evs.foldl (fun q ev => evolveRow q ev now) p

/-- Characters on which every strip pattern is inert: no path separators,
no digits, no dash, no quotes, and the only whitespace allowed is the plain
space (letters, spaces and ':' — as in canonical signatures such as
`TypeError: Cannot read property of undefined` — all qualify). -/
def plainChar (c : Char) : Bool :=
  !isSlashChar c && !isDigitChar c && (!isSpaceChar c || c == ' ') &&
    c != '-' && c != '"' && c != '\''

/-- No suffix starts with a run of 16 or more hex characters (such a run is
what `\b[a-fA-F0-9]{16,}\b` could match: letter-only text still contains
hex characters a-f). -/
def noLongHexRun : List Char → Bool
  | [] => true
  | c :: cs => decide (countWhile isHexChar (c :: cs) < 16) && noLongHexRun cs

/-- No two adjacent whitespace characters (so `\s+` collapsing is inert). -/
def noAdjSpace : List Char → Bool
  | a :: b :: rest => !(isSpaceChar a && isSpaceChar b) && noAdjSpace (b :: rest)
  | _ => true

/-- First and last characters are not whitespace (so `trim` is inert). -/
def edgeNonSpace (cs : List Char) : Bool :=
  (match cs.head? with | some c => !isSpaceChar c | none => true) &&
  (match cs.getLast? with | some c => !isSpaceChar c | none => true)

/-- `/comp₁/comp₂/...` — an absolute path from its component list. -/
def renderPath : List (List Char) → List Char
  | [] => []
  | comp :: comps => '/' :: (comp ++ renderPath comps)

/-- The canonicalizer input `message ++ path ++ ":line:col"` of C5's
path/line-invariance claim. -/
def pathInput (pre : String) (comps : List (List Char)) (line col : List Char) :
    String :=
  String.mk (pre.toList ++ renderPath comps ++ ':' :: line ++ ':' :: col)

/-- The C5 idempotence counterexample: quoted-literal stripping re-pairs the
remaining quote characters, leaving a new strippable quoted run in the
canonical output. -/
def quoteRepairInput : String :=
  "Error: \"aaaaaaaaaaa\" xxxxxxxxxxxxxxxxxxxxxx \"ccccccccccccc\""

/-- The tail of the `generateErrorSignature` pipeline after the strip passes
(collapse whitespace, trim, truncate, length guard).  Two inputs whose strip
passes produce the same list necessarily share this continuation. -/
def sigFinish (z : List Char) : String :=
  let s := (trimChars (collapseWs z)).take 200
  if s.length < 5 then "generic:short_error" else String.mk s

/-- Every ACTIVE playbook of `st'` descends from an ACTIVE playbook of `st`
with the same row id: no operation promotes a row to ACTIVE. -/
def ActivePreserved (st st' : Store) : Prop :=
  ∀ p' ∈ st'.playbooks, p'.status = "ACTIVE" →
    ∃ p ∈ st.playbooks, p.id = p'.id ∧ p.status = "ACTIVE"

/-- `e'` is `e` with at most the Reflector's annotation applied: identity,
type, timestamp, summary and details agree, and either the row is untouched
or its `analysis_outcome` was set to SUCCESS or FAILURE. -/
def TaggedFrom (e' e : JournalEntry) : Prop :=
  e.id = e'.id ∧ e'.entry_type = e.entry_type ∧ e'.timestamp = e.timestamp ∧
  e'.summary = e.summary ∧ e'.details = e.details ∧
  (e' = e ∨ e'.analysis_outcome = some "SUCCESS" ∨
    e'.analysis_outcome = some "FAILURE")

/-! ## Helper lemmas: the stable sort and the first-occurrence dedup -/

theorem mem_insertSorted {α} {le : α → α → Bool} {a x : α} {l : List α} :
    x ∈ insertSorted le a l ↔ x = a ∨ x ∈ l := by
  induction l with
  | nil => simp [insertSorted]
  | cons b bs ih =>
    simp only [insertSorted]
    by_cases h : le a b = true
    · rw [if_pos h]
      simp [List.mem_cons]
    · rw [if_neg h]
      simp only [List.mem_cons, ih]
      tauto

theorem mem_sortByStable {α} {le : α → α → Bool} {x : α} {l : List α} :
    x ∈ sortByStable le l ↔ x ∈ l := by
  induction l with
  | nil => simp [sortByStable]
  | cons a as ih => simp [sortByStable, mem_insertSorted, ih, List.mem_cons]

theorem pairwise_insertSorted {α} {le : α → α → Bool}
    (htrans : ∀ a b c, le a b = true → le b c = true → le a c = true)
    (htot : ∀ a b, le a b = true ∨ le b a = true)
    (a : α) {l : List α} (h : l.Pairwise (fun x y => le x y = true)) :
    (insertSorted le a l).Pairwise (fun x y => le x y = true) := by
  induction l with
  | nil => simp [insertSorted]
  | cons b bs ih =>
    rcases List.pairwise_cons.mp h with ⟨hb, hbs⟩
    by_cases hab : le a b = true
    · simp only [insertSorted]
      rw [if_pos hab]
      refine List.pairwise_cons.mpr ⟨?_, h⟩
      intro x hx
      rcases List.mem_cons.mp hx with rfl | hx
      · exact hab
      · exact htrans a b x hab (hb x hx)
    · simp only [insertSorted]
      rw [if_neg hab]
      have hba : le b a = true := by
        rcases htot a b with h1 | h1
        · exact absurd h1 hab
        · exact h1
      refine List.pairwise_cons.mpr ⟨?_, ih hbs⟩
      intro x hx
      rcases mem_insertSorted.mp hx with hxa | hx
      · rw [hxa]
        exact hba
      · exact hb x hx

theorem sorted_sortByStable {α} {le : α → α → Bool}
    (htrans : ∀ a b c, le a b = true → le b c = true → le a c = true)
    (htot : ∀ a b, le a b = true ∨ le b a = true)
    (l : List α) :
    (sortByStable le l).Pairwise (fun x y => le x y = true) := by
  induction l with
  | nil => simp [sortByStable]
  | cons a as ih =>
    simpa only [sortByStable] using pairwise_insertSorted htrans htot a ih

/-- In a list sorted by a reflexive relation, the last element is above
every member. -/
theorem getLast_max {α} {R : α → α → Prop} (hrefl : ∀ a, R a a)
    {l : List α} (hp : l.Pairwise R) {w : α} (hw : l.getLast? = some w) :
    ∀ x ∈ l, R x w := by
  induction l with
  | nil => simp at hw
  | cons a rest ih =>
    rcases List.pairwise_cons.mp hp with ⟨ha, hrest⟩
    cases rest with
    | nil =>
      have hwa : w = a := by
        simpa [List.getLast?] using hw.symm
      intro x hx
      have hxa : x = a := List.mem_singleton.mp hx
      rw [hxa, hwa]
      exact hrefl a
    | cons b t =>
      rw [List.getLast?_cons_cons] at hw
      intro x hx
      rcases List.mem_cons.mp hx with rfl | hx
      · have hwmem : w ∈ b :: t := by
          rcases List.getLast?_eq_some_iff.mp hw with ⟨ys, hys⟩
          rw [hys]
          exact List.mem_append_right ys (List.mem_singleton.mpr rfl)
        exact ha w hwmem
      · exact ih hrest hw x hx

theorem mem_dedupGo {α} [DecidableEq α] {x : α} :
    ∀ {seen l : List α}, x ∈ dedupGo seen l ↔ x ∈ l ∧ x ∉ seen := by
  intro seen l
  induction l generalizing seen with
  | nil => simp [dedupGo]
  | cons a as ih =>
    simp only [dedupGo]
    by_cases h : a ∈ seen
    · rw [if_pos h, ih]
      simp only [List.mem_cons]
      constructor
      · rintro ⟨h1, h2⟩
        exact ⟨Or.inr h1, h2⟩
      · rintro ⟨h1 | h1, h2⟩
        · subst h1
          exact absurd h h2
        · exact ⟨h1, h2⟩
    · rw [if_neg h]
      simp only [List.mem_cons, ih]
      constructor
      · rintro (rfl | ⟨h1, h2⟩)
        · exact ⟨Or.inl rfl, h⟩
        · exact ⟨Or.inr h1, fun hx => h2 (Or.inr hx)⟩
      · rintro ⟨rfl | h1, h2⟩
        · exact Or.inl rfl
        · by_cases hxa : x = a
          · exact Or.inl hxa
          · refine Or.inr ⟨h1, fun hx => ?_⟩
            rcases hx with h3 | h3
            · exact hxa h3
            · exact h2 h3

theorem mem_dedupKeepFirst {α} [DecidableEq α] {x : α} {l : List α} :
    x ∈ dedupKeepFirst l ↔ x ∈ l := by
  simp [dedupKeepFirst, mem_dedupGo]

/-! ## Helper lemmas: playbook confidence -/

theorem evolveRow_conf (p : Playbook) (ev : Bool) (now : Nat) :
    (evolveRow p ev now).confidence_score =
      (((evolveRow p ev now).success_count : ℚ) + 1) /
        (((evolveRow p ev now).success_count : ℚ) +
          ((evolveRow p ev now).failure_count : ℚ) + 2) := by
  cases ev <;> simp [evolveRow]

theorem evolveSeq_conf (p : Playbook) (now : Nat) (evs : List Bool)
    (h : evs ≠ []) :
    (evolveSeq p now evs).confidence_score =
      (((evolveSeq p now evs).success_count : ℚ) + 1) /
        (((evolveSeq p now evs).success_count : ℚ) +
          ((evolveSeq p now evs).failure_count : ℚ) + 2) := by
  induction evs generalizing p with
  | nil => exact absurd rfl h
  | cons e rest ih =>
    cases rest with
    | nil => simpa [evolveSeq] using evolveRow_conf p e now
    | cons e2 t =>
      have hs : evolveSeq p now (e :: e2 :: t) =
          evolveSeq (evolveRow p e now) now (e2 :: t) := rfl
      rw [hs]
      exact ih (evolveRow p e now) (by simp)

theorem bayes_pos (s f : Nat) : 0 < ((s : ℚ) + 1) / ((s : ℚ) + (f : ℚ) + 2) := by
  positivity

theorem bayes_lt_one (s f : Nat) :
    ((s : ℚ) + 1) / ((s : ℚ) + (f : ℚ) + 2) < 1 := by
  rw [div_lt_one (by positivity)]
  have hf : (0 : ℚ) ≤ (f : ℚ) := Nat.cast_nonneg f
  linarith

theorem bayes_mono_success (s f : Nat) :
    ((s : ℚ) + 1) / ((s : ℚ) + (f : ℚ) + 2) <
      ((s : ℚ) + 1 + 1) / ((s : ℚ) + 1 + (f : ℚ) + 2) := by
  have hs : (0 : ℚ) ≤ (s : ℚ) := Nat.cast_nonneg s
  have hf : (0 : ℚ) ≤ (f : ℚ) := Nat.cast_nonneg f
  rw [div_lt_div_iff₀ (by positivity) (by positivity)]
  nlinarith

theorem bayes_mono_failure (s f : Nat) :
    ((s : ℚ) + 1) / ((s : ℚ) + ((f : ℚ) + 1) + 2) <
      ((s : ℚ) + 1) / ((s : ℚ) + (f : ℚ) + 2) := by
  have hs : (0 : ℚ) ≤ (s : ℚ) := Nat.cast_nonneg s
  have hf : (0 : ℚ) ≤ (f : ℚ) := Nat.cast_nonneg f
  exact div_lt_div_of_pos_left (by positivity) (by positivity) (by linarith)

/-! ## Claim theorems -/

/-- **C9** (confirmed): for every session whose `reflection_status` is
already ANALYZED, `reflectOnSession` is a no-op: the whole store — every
row of every table — is returned unchanged. -/
theorem reflect_analyzed_noop (st : Store) (sessionId now : Nat)
    (s : DevSession) (h1 : getSession st sessionId = some s)
    (h2 : s.reflection_status = "ANALYZED") :
    reflectOnSession st sessionId now = st := by
  unfold reflectOnSession
  rw [h1]
  simp [h2]

theorem reflect_analyzed_noop_witness :
    (getSession ex9Store 1 = some { exSession1 with reflection_status := "ANALYZED" } ∧
      ({ exSession1 with reflection_status := "ANALYZED" } : DevSession).reflection_status =
        "ANALYZED") ∧
    reflectOnSession ex9Store 1 55 = ex9Store :=
  ⟨⟨by decide, by decide⟩,
    reflect_analyzed_noop ex9Store 1 55
      { exSession1 with reflection_status := "ANALYZED" } (by decide) (by decide)⟩

/-- **C4** (confirmed): after every nonempty sequence of usage-feedback
events applied through `evolvePlaybook`'s row update, the confidence equals
`(success_count + 1) / (success_count + failure_count + 2)`; consequently it
lies strictly between 0 and 1, a further helpful event strictly increases
it, and a further not-helpful event strictly decreases it. -/
theorem playbook_confidence_bayes (p : Playbook) (now : Nat) (evs : List Bool)
    (hne : evs ≠ []) :
    (evolveSeq p now evs).confidence_score =
        (((evolveSeq p now evs).success_count : ℚ) + 1) /
          (((evolveSeq p now evs).success_count : ℚ) +
            ((evolveSeq p now evs).failure_count : ℚ) + 2) ∧
    0 < (evolveSeq p now evs).confidence_score ∧
    (evolveSeq p now evs).confidence_score < 1 ∧
    ∀ ev : Bool,
      (ev = true →
        (evolveSeq p now evs).confidence_score <
          (evolveRow (evolveSeq p now evs) ev now).confidence_score) ∧
      (ev = false →
        (evolveRow (evolveSeq p now evs) ev now).confidence_score <
          (evolveSeq p now evs).confidence_score) := by
  have hq := evolveSeq_conf p now evs hne
  refine ⟨hq, ?_, ?_, ?_⟩
  · rw [hq]
    exact bayes_pos _ _
  · rw [hq]
    exact bayes_lt_one _ _
  · intro ev
    constructor
    · rintro rfl
      have hsc : (evolveRow (evolveSeq p now evs) true now).success_count =
          (evolveSeq p now evs).success_count + 1 := by simp [evolveRow]
      have hfc : (evolveRow (evolveSeq p now evs) true now).failure_count =
          (evolveSeq p now evs).failure_count := by simp [evolveRow]
      have h2 := evolveRow_conf (evolveSeq p now evs) true now
      rw [hsc, hfc] at h2
      rw [hq, h2]
      push_cast
      exact bayes_mono_success _ _
    · rintro rfl
      have hsc : (evolveRow (evolveSeq p now evs) false now).success_count =
          (evolveSeq p now evs).success_count := by simp [evolveRow]
      have hfc : (evolveRow (evolveSeq p now evs) false now).failure_count =
          (evolveSeq p now evs).failure_count + 1 := by simp [evolveRow]
      have h2 := evolveRow_conf (evolveSeq p now evs) false now
      rw [hsc, hfc] at h2
      rw [hq, h2]
      push_cast
      exact bayes_mono_failure _ _

theorem playbook_confidence_bayes_witness :
    ([true] : List Bool) ≠ [] ∧
    (0 < (evolveSeq ex7Playbook 0 [true]).confidence_score ∧
      (evolveSeq ex7Playbook 0 [true]).confidence_score < 1) :=
  ⟨by decide,
    (playbook_confidence_bayes ex7Playbook 0 [true] (by decide)).2.1,
    (playbook_confidence_bayes ex7Playbook 0 [true] (by decide)).2.2.1⟩

/-- `reflectOnPendingSessions` is the identity when no session is both
COMPLETED and PENDING. -/
theorem reflectOnPendingSessions_empty (st : Store) (now : Nat)
    (h : st.sessions.filter
        (fun s => s.status == "COMPLETED" && s.reflection_status == "PENDING") = []) :
    reflectOnPendingSessions st now = st := by
  unfold reflectOnPendingSessions
  rw [h]
  simp [sortByStable]

/-- **C7** (corrected, counterexample): two maintenance sweeps run on the
same day over an ACTIVE playbook unused for 40 days multiply its confidence
by the decay factor twice (0.995²), not once — decay is keyed to the number
of sweep invocations, not to wall-clock time elapsed since last use. -/
theorem playbook_decay_counterexample :
    ((runMaintenanceCycle (runMaintenanceCycle ex7Store fortyDaysMs)
          fortyDaysMs).playbooks.map (fun p => p.confidence_score)) =
      [3 / 5 * (199 / 200) * (199 / 200)] ∧
    (3 / 5 * (199 / 200) * (199 / 200) : ℚ) ≠ 3 / 5 * (199 / 200) := by
  constructor
  · simp [runMaintenanceCycle, reflectOnPendingSessions, decayStalePlaybooks,
      archiveLowConfidencePlaybooks, decayRow, ex7Store, ex7Playbook, emptyStore,
      sortByStable, thirtyDaysMs, fortyDaysMs]
  · norm_num

/-- **C7** (corrected, amended claim): every maintenance sweep in which an
ACTIVE playbook's `last_used_at` is more than 30 days old multiplies its
confidence by 0.995; two sweeps satisfying that condition — same day or not
— multiply it twice. -/
theorem playbook_decay_per_sweep (st : Store) (p : Playbook) (t now1 now2 : Nat)
    (hp : p ∈ st.playbooks) (hact : p.status = "ACTIVE")
    (hl : p.last_used_at = some t)
    (h1 : t < now1 - thirtyDaysMs) (h2 : t < now2 - thirtyDaysMs)
    (hpend : st.sessions.filter
        (fun s => s.status == "COMPLETED" && s.reflection_status == "PENDING") = []) :
    ∃ p' ∈ (runMaintenanceCycle (runMaintenanceCycle st now1) now2).playbooks,
      p'.id = p.id ∧
      p'.confidence_score = p.confidence_score * (199 / 200) * (199 / 200) := by
  have hd1 : decayRow now1 p =
      { p with confidence_score := p.confidence_score * (199 / 200) } := by
    simp [decayRow, hact, hl, h1]
  have hd2 : decayRow now2 ({ p with confidence_score :=
        p.confidence_score * (199 / 200) }) =
      { p with confidence_score := p.confidence_score * (199 / 200) * (199 / 200) } := by
    simp [decayRow, hact, hl, h2]
  have hm1 : runMaintenanceCycle st now1 = decayStalePlaybooks st now1 := by
    unfold runMaintenanceCycle archiveLowConfidencePlaybooks
    rw [reflectOnPendingSessions_empty st now1 hpend]
  have hm2 : runMaintenanceCycle (decayStalePlaybooks st now1) now2 =
      decayStalePlaybooks (decayStalePlaybooks st now1) now2 := by
    unfold runMaintenanceCycle archiveLowConfidencePlaybooks
    rw [reflectOnPendingSessions_empty (decayStalePlaybooks st now1) now2 hpend]
  rw [hm1, hm2]
  refine ⟨decayRow now2 (decayRow now1 p), ?_, ?_⟩
  · exact List.mem_map_of_mem _ (List.mem_map_of_mem _ hp)
  · rw [hd1, hd2]
    exact ⟨rfl, rfl⟩

theorem playbook_decay_per_sweep_witness :
    ex7Playbook.status = "ACTIVE" ∧ ex7Playbook.last_used_at = some 0 ∧
    0 < fortyDaysMs - thirtyDaysMs ∧
    ∃ p' ∈ (runMaintenanceCycle (runMaintenanceCycle ex7Store fortyDaysMs)
        fortyDaysMs).playbooks,
      p'.id = ex7Playbook.id ∧
      p'.confidence_score = ex7Playbook.confidence_score * (199 / 200) * (199 / 200) :=
  ⟨rfl, rfl, by decide,
    playbook_decay_per_sweep ex7Store ex7Playbook 0 fortyDaysMs fortyDaysMs
      (by simp [ex7Store]) rfl rfl (by decide) (by decide) rfl⟩

/-- **C8** (confirmed): at `considerPlaybookUpdate`, for a successful
analysis carrying an error signature and a winning strategy with no playbook
for the signature: if the universal pattern for the signature has at least
2 successes, exactly one new playbook row is appended, with status DRAFT,
confidence 0.6 and success_count 1; with fewer than 2 successes, or no
pattern at all, the store is unchanged. -/
theorem playbook_creation_threshold (st : Store) (analysis : SessionAnalysis)
    (session : DevSession) (now : Nat) (sig ws : String)
    (hsig : analysis.errorSignature = some sig)
    (hws : analysis.winningStrategy = some ws)
    (hnone : st.playbooks.find? (fun p => p.error_signature == sig) = none) :
    (∀ pat, st.patterns.find? (fun p => p.signature == sig) = some pat →
        2 ≤ pat.success_count →
        considerPlaybookUpdate st analysis session now =
          createPlaybook st analysis session pat now ∧
        ∃ r, (considerPlaybookUpdate st analysis session now).playbooks =
            st.playbooks ++ [r] ∧
          r.status = "DRAFT" ∧ r.confidence_score = 3 / 5 ∧
          r.success_count = 1 ∧ r.error_signature = sig) ∧
    (∀ pat, st.patterns.find? (fun p => p.signature == sig) = some pat →
        pat.success_count < 2 →
        considerPlaybookUpdate st analysis session now = st) ∧
    (st.patterns.find? (fun p => p.signature == sig) = none →
        considerPlaybookUpdate st analysis session now = st) := by
  refine ⟨?_, ?_, ?_⟩
  · intro pat hpat h2
    have hred : considerPlaybookUpdate st analysis session now =
        createPlaybook st analysis session pat now := by
      unfold considerPlaybookUpdate
      rw [hsig, hws]
      simp only [hnone, hpat, h2, if_true]
    refine ⟨hred, ?_⟩
    rw [hred]
    refine ⟨_, rfl, rfl, rfl, rfl, ?_⟩
    show analysis.errorSignature.getD "" = sig
    rw [hsig]
    rfl
  · intro pat hpat h2
    have hcond : ¬ 2 ≤ pat.success_count := by omega
    unfold considerPlaybookUpdate
    rw [hsig, hws]
    simp only [hnone, hpat, hcond, if_false]
  · intro hpat
    unfold considerPlaybookUpdate
    rw [hsig, hws]
    simp only [hnone, hpat]

theorem playbook_creation_threshold_witness :
    ex8Analysis.errorSignature = some "Error: boom" ∧
    ex8Analysis.winningStrategy = some "cache-invalidation" ∧
    ex8Store.playbooks.find? (fun p => p.error_signature == "Error: boom") = none ∧
    ex8Store.patterns.find? (fun p => p.signature == "Error: boom") = some ex8Pattern ∧
    2 ≤ ex8Pattern.success_count ∧
    ∃ r, (considerPlaybookUpdate ex8Store ex8Analysis exSession1 77).playbooks =
        ex8Store.playbooks ++ [r] ∧ r.status = "DRAFT" ∧ r.confidence_score = 3 / 5 ∧
        r.success_count = 1 ∧ r.error_signature = "Error: boom" :=
  ⟨rfl, rfl, rfl, by decide, by decide,
    ((playbook_creation_threshold ex8Store ex8Analysis exSession1 77 "Error: boom"
        "cache-invalidation" rfl rfl rfl).1 ex8Pattern (by decide) (by decide)).2⟩

/-- **C2** (code bug): `endSession` with an explicit `fixEntryId` (entry 4)
and outcome COMPLETED stores the supplied id, but the reflection it triggers
drops the extra argument (`reflectOnSession` takes only the session id) and
`markSessionAnalyzed` overwrites `successful_hypothesis_id` with the
timestamp-inferred winner (entry 2): after the call the stored fix entry is
2, not the supplied 4. -/
theorem endSession_fixEntryId_overwritten :
    ((endSession ex2Store 1 "COMPLETED" (some "done") (some 4) 100).bind
        (fun st => getSession st 1)).map (fun s => s.successful_hypothesis_id) =
      some (some 2) ∧
    ((endSession ex2Store 1 "COMPLETED" (some "done") (some 4) 100).bind
        (fun st => getSession st 1)).map (fun s => s.successful_hypothesis_id) ≠
      some (some 4) := by
  decide

/-- **C1** (corrected, counterexample): in a session with hypothesis 1,
passing run, hypothesis 3, passing run (in that order), the analysis selects
entry 3 — the last hypothesis before the **last** passing TEST_RUN — while
the claim's selector (last hypothesis strictly before the **first** passing
TEST_RUN) designates entry 1. -/
theorem analyzeSession_winner_counterexample :
    (analyzeSession ex1Store 1 1000).winningHypothesis.map (fun h => h.id) = some 3 ∧
    ((((getSessionJournal ex1Store 1).filter
            (fun e => e.entry_type == "TEST_RUN")).find? entryPassed).bind
        (fun fr =>
          (((getSessionJournal ex1Store 1).filter
              (fun e => e.entry_type == "AI_HYPOTHESIS")).filter
            (fun h => decide (h.timestamp < fr.timestamp))).getLast?)).map
        (fun h => h.id) = some 1 ∧
    (analyzeSession ex1Store 1 1000).winningHypothesis ≠
      ((((getSessionJournal ex1Store 1).filter
            (fun e => e.entry_type == "TEST_RUN")).find? entryPassed).bind
        (fun fr =>
          (((getSessionJournal ex1Store 1).filter
              (fun e => e.entry_type == "AI_HYPOTHESIS")).filter
            (fun h => decide (h.timestamp < fr.timestamp))).getLast?)) := by
  decide

theorem taggedFrom_refl (e : JournalEntry) : TaggedFrom e e :=
  ⟨rfl, rfl, rfl, rfl, rfl, Or.inl rfl⟩

theorem taggedFrom_trans {e' mid e : JournalEntry} (h : TaggedFrom e' mid)
    (g : TaggedFrom mid e) : TaggedFrom e' e := by
  obtain ⟨h1, h2, h3, h4, h5, h6⟩ := h
  obtain ⟨g1, g2, g3, g4, g5, g6⟩ := g
  refine ⟨g1.trans h1, h2.trans g2, h3.trans g3, h4.trans g4, h5.trans g5, ?_⟩
  rcases h6 with h6 | h6 | h6
  · rw [h6]
    exact g6
  · exact Or.inr (Or.inl h6)
  · exact Or.inr (Or.inr h6)

/-- Every journal row surviving the losing-hypothesis tagging loop is a
tagged version of a row of the starting store. -/
theorem foldl_tagLoser_tagged :
    ∀ (losers : List JournalEntry) (st : Store) (e' : JournalEntry),
      e' ∈ (losers.foldl tagLoser st).journal →
      ∃ e ∈ st.journal, TaggedFrom e' e := by
  intro losers
  induction losers with
  | nil =>
    intro st e' h
    exact ⟨e', h, taggedFrom_refl e'⟩
  | cons l ls ih =>
    intro st e' h
    rcases ih (tagLoser st l) e' h with ⟨mid, hmid, ht⟩
    rcases List.mem_map.mp hmid with ⟨e0, he0, heq⟩
    refine ⟨e0, he0, taggedFrom_trans ht ?_⟩
    subst heq
    by_cases hid : e0.id = l.id
    · rw [if_pos hid]
      exact ⟨rfl, rfl, rfl, rfl, rfl, Or.inr (Or.inr rfl)⟩
    · rw [if_neg hid]
      exact taggedFrom_refl e0

/-- **C6** (corrected, counterexample): two append operations populate the
analysis fields at creation time — `recordTestRun` stores
`analysis_outcome = SUCCESS` on the entry it creates for a passing run, and
`logHypothesis` stores the caller's `approach_tags`; neither field is NULL. -/
theorem journal_annotation_counterexample :
    ((recordTestRun emptyStore 1 (some 1)
          { status := "PASSED", duration_ms := none, total_tests := some 3,
            passed_tests := some 3, failed_tests := some 0,
            skipped_tests := some 0, source_file := none } 50).1.journal.map
        (fun e => e.analysis_outcome)) = [some "SUCCESS"] ∧
    ((logHypothesis emptyStore 1 1 none "clear the stale cache"
          ["cache-invalidation"] 50).1.journal.map (fun e => e.approach_tags)) =
      [some ["cache-invalidation"]] := by
  decide

/-- **C6** (corrected, amended claim): `analysis_outcome` and
`approach_tags` are stored exactly as the creating operation supplies them —
NULL for a generic append that supplies neither, but `recordTestRun` sets
`analysis_outcome` (SUCCESS iff the run PASSED) and `logHypothesis` sets
`approach_tags` already at creation; the Reflector's `tagHypotheses` later
annotates winning/losing hypotheses, never altering id, type, timestamp,
summary or details. -/
theorem journal_annotation_corrected :
    (∀ (st : Store) (e : NewEntry) (now : Nat),
        ∃ j, (addJournalEntry st e now).1.journal = st.journal ++ [j] ∧
          j.analysis_outcome = e.analysis_outcome ∧
          j.approach_tags = e.approach_tags) ∧
    (∀ (st : Store) (pid : Nat) (sid : Option Nat) (run : NewTestRun) (now : Nat),
        ∃ j, (recordTestRun st pid sid run now).1.journal = st.journal ++ [j] ∧
          j.analysis_outcome =
            some (if run.status = "PASSED" then "SUCCESS" else "FAILURE") ∧
          j.approach_tags = none) ∧
    (∀ (st : Store) (pid sid : Nat) (parent : Option Nat) (hyp : String)
        (tags : List String) (now : Nat),
        ∃ j, (logHypothesis st pid sid parent hyp tags now).1.journal =
            st.journal ++ [j] ∧
          j.approach_tags = some tags ∧ j.analysis_outcome = none) ∧
    (∀ (st : Store) (analysis : SessionAnalysis) (e' : JournalEntry),
        e' ∈ (tagHypotheses st analysis).journal →
        ∃ e ∈ st.journal, TaggedFrom e' e) := by
  refine ⟨?_, ?_, ?_, ?_⟩
  · intro st e now
    exact ⟨_, rfl, rfl, rfl⟩
  · intro st pid sid run now
    exact ⟨_, rfl, rfl, rfl⟩
  · intro st pid sid parent hyp tags now
    exact ⟨_, rfl, rfl, rfl⟩
  · intro st analysis e' hmem
    rcases hwin : analysis.winningHypothesis with _ | w
    · have hmem' : e' ∈ (analysis.losingHypotheses.foldl tagLoser st).journal := by
        unfold tagHypotheses at hmem
        rw [hwin] at hmem
        exact hmem
      exact foldl_tagLoser_tagged analysis.losingHypotheses st e' hmem'
    · have hmem' : e' ∈ (analysis.losingHypotheses.foldl tagLoser
          { st with
              journal := st.journal.map fun e =>
                if e.id = w.id then
                  { e with analysis_outcome := some "SUCCESS",
                           approach_tags := some (extractStrategyTags w.summary) }
                else e }).journal := by
        unfold tagHypotheses at hmem
        rw [hwin] at hmem
        exact hmem
      rcases foldl_tagLoser_tagged _ _ e' hmem' with ⟨mid, hmid, ht⟩
      rcases List.mem_map.mp hmid with ⟨e0, he0, heq⟩
      refine ⟨e0, he0, taggedFrom_trans ht ?_⟩
      subst heq
      by_cases hid : e0.id = w.id
      · rw [if_pos hid]
        exact ⟨rfl, rfl, rfl, rfl, rfl, Or.inr (Or.inl rfl)⟩
      · rw [if_neg hid]
        exact taggedFrom_refl e0

theorem journal_annotation_corrected_witness :
    exEntry 2 10 "AI_HYPOTHESIS" "increase timeout for auth token" none ∈
        (tagHypotheses ex2Store
          { sessionId := 1, success := true, errorSignature := none,
            winningHypothesis := none, losingHypotheses := [],
            winningStrategy := none, allStrategiesTried := [],
            timeToFixMs := 0, hypothesisCount := 1 }).journal ∧
    ∃ e ∈ ex2Store.journal,
      TaggedFrom (exEntry 2 10 "AI_HYPOTHESIS" "increase timeout for auth token" none) e :=
  ⟨by decide,
    (journal_annotation_corrected).2.2.2 ex2Store
      { sessionId := 1, success := true, errorSignature := none,
        winningHypothesis := none, losingHypotheses := [],
        winningStrategy := none, allStrategiesTried := [],
        timeToFixMs := 0, hypothesisCount := 1 }
      (exEntry 2 10 "AI_HYPOTHESIS" "increase timeout for auth token" none)
      (by decide)⟩

/-- Every row of the `flaky_tests` view carries
`flakiness_pct = ROUND(100 * failures / total_runs, 1)`. -/
theorem flaky_pct_eq (st : Store) (now : Nat) (r : FlakyRow)
    (hr : r ∈ flaky_tests st now) :
    r.flakiness_pct =
      sqliteRound1 ((100 * (r.failures : ℚ)) / (r.total_runs : ℚ)) := by
  simp only [flaky_tests] at hr
  rcases List.mem_filterMap.mp (mem_sortByStable.mp hr) with ⟨k, hk, heq⟩
  by_cases hc :
      0 < (flakyGroup st now k.1 k.2).countP (fun rt => rt.1.status == "PASSED") ∧
      0 < (flakyGroup st now k.1 k.2).countP (fun rt => rt.1.status == "FAILED")
  · rw [if_pos hc] at heq
    have hrow := Option.some.inj heq
    rw [← hrow]
  · rw [if_neg hc] at heq
    exact Option.noConfusion heq

theorem map_eq_singleton_forall {α β : Type _} {l : List α} {f : α → β} {x : β}
    (h : l.map f = [x]) : ∀ r ∈ l, f r = x := by
  cases l with
  | nil => simp at h
  | cons a t =>
    cases t with
    | nil =>
      intro r hr
      have hra : r = a := List.mem_singleton.mp hr
      rw [hra]
      simpa using h
    | cons b t2 => simp at h

/-- **C3** (corrected, counterexample): a test with one PASSED, one FAILED
and one SKIPPED result inside the window appears with
`flakiness_pct = 33.3` — failures divided by **all three** rows — whereas
the claim's formula `failures/(passes+failures)*100` gives 50. -/
theorem flaky_tests_counterexample :
    ((flaky_tests ex3Store (50 + thirtyDaysMs)).map
        (fun r => (r.test_name, r.test_file, r.total_runs, r.passes, r.failures))) =
      [("login works", some "auth.test.ts", 3, 1, 1)] ∧
    ∀ r ∈ flaky_tests ex3Store (50 + thirtyDaysMs),
      r.flakiness_pct = 333 / 10 ∧
      r.flakiness_pct ≠
        ((r.failures : ℚ) / ((r.passes : ℚ) + (r.failures : ℚ))) * 100 := by
  have h1 : ((flaky_tests ex3Store (50 + thirtyDaysMs)).map
      (fun r => (r.test_name, r.test_file, r.total_runs, r.passes, r.failures))) =
      [("login works", some "auth.test.ts", 3, 1, 1)] := by decide
  refine ⟨h1, ?_⟩
  intro r hr
  have hfields := map_eq_singleton_forall h1 r hr
  have htot : r.total_runs = 3 := by
    have := congrArg (fun t => t.2.2.1) hfields
    simpa using this
  have hpass : r.passes = 1 := by
    have := congrArg (fun t => t.2.2.2.1) hfields
    simpa using this
  have hfail : r.failures = 1 := by
    have := congrArg (fun t => t.2.2.2.2) hfields
    simpa using this
  have hpct := flaky_pct_eq ex3Store (50 + thirtyDaysMs) r hr
  rw [hfail, htot] at hpct
  have hv : sqliteRound1 ((100 * ((1 : ℕ) : ℚ)) / ((3 : ℕ) : ℚ)) = 333 / 10 := by
    unfold sqliteRound1
    rw [show ((10 : ℚ) * ((100 * ((1 : ℕ) : ℚ)) / ((3 : ℕ) : ℚ)) + 1 / 2) =
        2003 / 6 by push_cast; ring_nf]
    rw [show (⌊(2003 / 6 : ℚ)⌋ : ℤ) = 333 from
      Int.floor_eq_iff.mpr (by norm_num)]
    norm_num
  constructor
  · rw [hpct, hv]
  · rw [hpct, hv, hpass, hfail]
    push_cast
    norm_num

/-- **C3** (corrected, amended claim): every test name+file pair whose
in-window group has at least one PASSED and at least one FAILED row appears
in the flaky view, with `flakiness_pct = ROUND(100 * failures /
total_rows_in_window, 1)` where the denominator counts **all** rows of the
group (SKIPPED and ERROR included); a pair whose group lacks a PASSED or
lacks a FAILED row never appears. -/
theorem flaky_tests_corrected (st : Store) (now : Nat) (name : String)
    (file : Option String) :
    (0 < (flakyGroup st now name file).countP (fun rt => rt.1.status == "PASSED") →
     0 < (flakyGroup st now name file).countP (fun rt => rt.1.status == "FAILED") →
     ∃ r ∈ flaky_tests st now, r.test_name = name ∧ r.test_file = file ∧
       r.passes = (flakyGroup st now name file).countP
         (fun rt => rt.1.status == "PASSED") ∧
       r.failures = (flakyGroup st now name file).countP
         (fun rt => rt.1.status == "FAILED") ∧
       r.total_runs = (flakyGroup st now name file).length ∧
       r.flakiness_pct = sqliteRound1
         ((100 * ((flakyGroup st now name file).countP
             (fun rt => rt.1.status == "FAILED") : ℚ)) /
           ((flakyGroup st now name file).length : ℚ))) ∧
    (((flakyGroup st now name file).countP (fun rt => rt.1.status == "PASSED") = 0 ∨
      (flakyGroup st now name file).countP (fun rt => rt.1.status == "FAILED") = 0) →
     ∀ r ∈ flaky_tests st now, ¬(r.test_name = name ∧ r.test_file = file)) := by
  constructor
  · intro hp hf
    obtain ⟨rt, hrtg, _⟩ := List.countP_pos_iff.mp hp
    have hWmem : rt ∈ windowedResults st now := by
      have := List.mem_filter.mp hrtg
      exact this.1
    have hkeyb := (List.mem_filter.mp hrtg).2
    simp only [Bool.and_eq_true, beq_iff_eq] at hkeyb
    have hkey : (rt.1.test_name, rt.1.test_file) = (name, file) := by
      rw [hkeyb.1, hkeyb.2]
    have hkmem : (name, file) ∈ dedupKeepFirst ((windowedResults st now).map
        (fun rt => (rt.1.test_name, rt.1.test_file))) := by
      rw [mem_dedupKeepFirst]
      exact List.mem_map.mpr ⟨rt, hWmem, hkey⟩
    refine ⟨{ test_name := name, test_file := file,
              total_runs := (flakyGroup st now name file).length,
              passes := (flakyGroup st now name file).countP
                (fun rt => rt.1.status == "PASSED"),
              failures := (flakyGroup st now name file).countP
                (fun rt => rt.1.status == "FAILED"),
              flakiness_pct := sqliteRound1
                ((100 * ((flakyGroup st now name file).countP
                    (fun rt => rt.1.status == "FAILED") : ℚ)) /
                  ((flakyGroup st now name file).length : ℚ)),
              last_run := (flakyGroup st now name file).foldl
                (fun m rt => max m rt.2) 0 },
      ?_, rfl, rfl, rfl, rfl, rfl, rfl⟩
    simp only [flaky_tests]
    refine mem_sortByStable.mpr (List.mem_filterMap.mpr ⟨(name, file), hkmem, ?_⟩)
    dsimp only
    rw [if_pos ⟨hp, hf⟩]
  · rintro h0 r hr ⟨hn, hf2⟩
    simp only [flaky_tests] at hr
    rcases List.mem_filterMap.mp (mem_sortByStable.mp hr) with ⟨k, hk, heq⟩
    by_cases hc :
        0 < (flakyGroup st now k.1 k.2).countP (fun rt => rt.1.status == "PASSED") ∧
        0 < (flakyGroup st now k.1 k.2).countP (fun rt => rt.1.status == "FAILED")
    · rw [if_pos hc] at heq
      have hrow := Option.some.inj heq
      rw [← hrow] at hn hf2
      have h1 : k.1 = name := hn
      have h2 : k.2 = file := hf2
      rw [h1, h2] at hc
      rcases h0 with h0 | h0 <;> omega
    · rw [if_neg hc] at heq
      exact Option.noConfusion heq

theorem flaky_tests_corrected_witness :
    0 < (flakyGroup ex3Store (50 + thirtyDaysMs) "login works"
        (some "auth.test.ts")).countP (fun rt => rt.1.status == "PASSED") ∧
    0 < (flakyGroup ex3Store (50 + thirtyDaysMs) "login works"
        (some "auth.test.ts")).countP (fun rt => rt.1.status == "FAILED") ∧
    ∃ r ∈ flaky_tests ex3Store (50 + thirtyDaysMs),
      r.test_name = "login works" ∧ r.test_file = some "auth.test.ts" ∧
      r.passes = (flakyGroup ex3Store (50 + thirtyDaysMs) "login works"
        (some "auth.test.ts")).countP (fun rt => rt.1.status == "PASSED") ∧
      r.failures = (flakyGroup ex3Store (50 + thirtyDaysMs) "login works"
        (some "auth.test.ts")).countP (fun rt => rt.1.status == "FAILED") ∧
      r.total_runs = (flakyGroup ex3Store (50 + thirtyDaysMs) "login works"
        (some "auth.test.ts")).length ∧
      r.flakiness_pct = sqliteRound1
        ((100 * ((flakyGroup ex3Store (50 + thirtyDaysMs) "login works"
            (some "auth.test.ts")).countP (fun rt => rt.1.status == "FAILED") : ℚ)) /
          ((flakyGroup ex3Store (50 + thirtyDaysMs) "login works"
            (some "auth.test.ts")).length : ℚ)) :=
  ⟨by decide, by decide,
    (flaky_tests_corrected ex3Store (50 + thirtyDaysMs) "login works"
        (some "auth.test.ts")).1 (by decide) (by decide)⟩

/-! ## Helper lemmas: no operation promotes a playbook to ACTIVE -/

theorem activePreserved_refl (st : Store) : ActivePreserved st st :=
  fun p' h hs => ⟨p', h, rfl, hs⟩

theorem activePreserved_trans {st1 st2 st3 : Store}
    (h12 : ActivePreserved st1 st2) (h23 : ActivePreserved st2 st3) :
    ActivePreserved st1 st3 := by
  intro p' hp' hs
  rcases h23 p' hp' hs with ⟨p2, hp2, hid2, hs2⟩
  rcases h12 p2 hp2 hs2 with ⟨p1, hp1, hid1, hs1⟩
  exact ⟨p1, hp1, hid1.trans hid2, hs1⟩

theorem activePreserved_of_playbooks_eq {st st' : Store}
    (h : st'.playbooks = st.playbooks) : ActivePreserved st st' := by
  intro p' hp' hs
  rw [h] at hp'
  exact ⟨p', hp', rfl, hs⟩

theorem activePreserved_map {st st' : Store} {f : Playbook → Playbook}
    (h : st'.playbooks = st.playbooks.map f)
    (hf : ∀ p, (f p).id = p.id ∧ (f p).status = p.status) :
    ActivePreserved st st' := by
  intro p' hp' hs
  rw [h] at hp'
  rcases List.mem_map.mp hp' with ⟨p, hp, heq⟩
  refine ⟨p, hp, ?_, ?_⟩
  · rw [← heq]
    exact ((hf p).1).symm
  · rw [← (hf p).2, heq]
    exact hs

theorem activePreserved_append {st st' : Store} {r : Playbook}
    (h : st'.playbooks = st.playbooks ++ [r]) (hr : r.status = "DRAFT") :
    ActivePreserved st st' := by
  intro p' hp' hs
  rw [h] at hp'
  rcases List.mem_append.mp hp' with hp | hp
  · exact ⟨p', hp, rfl, hs⟩
  · have hpr : p' = r := List.mem_singleton.mp hp
    rw [hpr, hr] at hs
    exact absurd hs (by decide)

theorem evolveRow_id (p : Playbook) (ev : Bool) (now : Nat) :
    (evolveRow p ev now).id = p.id := by
  cases ev <;> simp [evolveRow]

theorem evolveRow_status (p : Playbook) (ev : Bool) (now : Nat) :
    (evolveRow p ev now).status = p.status := by
  cases ev <;> simp [evolveRow]

theorem decayRow_id (now : Nat) (p : Playbook) : (decayRow now p).id = p.id := by
  unfold decayRow
  split <;> rfl

theorem decayRow_status (now : Nat) (p : Playbook) :
    (decayRow now p).status = p.status := by
  unfold decayRow
  split <;> rfl

theorem activePreserved_evolvePlaybook (st : Store) (playbookId : Nat)
    (wasHelpful : Bool) (sessionId : Option Nat) (now : Nat) :
    ActivePreserved st (evolvePlaybook st playbookId wasHelpful sessionId now) := by
  refine activePreserved_map (f := fun p =>
    if p.id = playbookId then evolveRow p wasHelpful now else p) rfl ?_
  intro p
  show (if p.id = playbookId then evolveRow p wasHelpful now else p).id = p.id ∧
    (if p.id = playbookId then evolveRow p wasHelpful now else p).status = p.status
  by_cases hp : p.id = playbookId
  · rw [if_pos hp]
    exact ⟨evolveRow_id p wasHelpful now, evolveRow_status p wasHelpful now⟩
  · rw [if_neg hp]
    exact ⟨rfl, rfl⟩

theorem activePreserved_decay (st : Store) (now : Nat) :
    ActivePreserved st (decayStalePlaybooks st now) :=
  activePreserved_map rfl (fun p => ⟨decayRow_id now p, decayRow_status now p⟩)

theorem reinforcePattern_playbooks (st : Store) (u : PatternUpdate) (now : Nat) :
    (reinforcePattern st u now).playbooks = st.playbooks := by
  unfold reinforcePattern
  cases st.patterns.find? (fun p => p.signature == u.signature) <;> rfl

theorem foldl_tagLoser_playbooks :
    ∀ (l : List JournalEntry) (st : Store),
      (l.foldl tagLoser st).playbooks = st.playbooks := by
  intro l
  induction l with
  | nil => intro st; rfl
  | cons a t ih =>
    intro st
    exact (ih (tagLoser st a)).trans rfl

theorem tagHypotheses_playbooks (st : Store) (analysis : SessionAnalysis) :
    (tagHypotheses st analysis).playbooks = st.playbooks := by
  unfold tagHypotheses
  cases hw : analysis.winningHypothesis with
  | none => exact foldl_tagLoser_playbooks _ _
  | some w => exact (foldl_tagLoser_playbooks _ _).trans rfl

theorem knowledgeUpdate_playbooks (st : Store) (analysis : SessionAnalysis)
    (session : DevSession) (now : Nat) :
    (knowledgeUpdate st analysis session now).playbooks = st.playbooks := by
  unfold knowledgeUpdate
  cases hs : analysis.success with
  | false => rfl
  | true =>
    cases hw : analysis.winningStrategy with
    | none => rfl
    | some ws =>
      cases hsig : analysis.errorSignature with
      | none =>
        exact (tagHypotheses_playbooks st analysis)
      | some sig =>
        exact (tagHypotheses_playbooks _ analysis).trans
          (reinforcePattern_playbooks st _ now)

theorem activePreserved_createPlaybook (st : Store) (analysis : SessionAnalysis)
    (session : DevSession) (pat : UniversalPattern) (now : Nat) :
    ActivePreserved st (createPlaybook st analysis session pat now) :=
  activePreserved_append rfl rfl

theorem activePreserved_consider (st : Store) (analysis : SessionAnalysis)
    (session : DevSession) (now : Nat) :
    ActivePreserved st (considerPlaybookUpdate st analysis session now) := by
  unfold considerPlaybookUpdate
  cases hsig : analysis.errorSignature with
  | none => exact activePreserved_refl st
  | some sig =>
    cases hws : analysis.winningStrategy with
    | none => exact activePreserved_refl st
    | some ws =>
      dsimp only
      cases hfind : st.playbooks.find? (fun p => p.error_signature == sig) with
      | some existing =>
        exact activePreserved_evolvePlaybook st existing.id true (some session.id) now
      | none =>
        cases hpat : st.patterns.find? (fun p => p.signature == sig) with
        | none => exact activePreserved_refl st
        | some pat =>
          dsimp only
          by_cases h2 : 2 ≤ pat.success_count
          · rw [if_pos h2]
            exact activePreserved_createPlaybook st analysis session pat now
          · rw [if_neg h2]
            exact activePreserved_refl st

theorem activePreserved_reflect (st : Store) (sid now : Nat) :
    ActivePreserved st (reflectOnSession st sid now) := by
  unfold reflectOnSession
  cases hs : getSession st sid with
  | none => exact activePreserved_refl st
  | some session =>
    dsimp only
    by_cases ha : session.reflection_status = "ANALYZED"
    · rw [if_pos ha]
      exact activePreserved_refl st
    · rw [if_neg ha]
      have hA : ActivePreserved st
          (markSessionAnalyzed (knowledgeUpdate st (analyzeSession st sid now)
            session now) sid (analyzeSession st sid now)) :=
        activePreserved_of_playbooks_eq
          (knowledgeUpdate_playbooks st (analyzeSession st sid now) session now)
      cases hsucc : (analyzeSession st sid now).success with
      | false =>
        cases hsig : (analyzeSession st sid now).errorSignature with
        | none => exact hA
        | some s0 => exact hA
      | true =>
        cases hsig : (analyzeSession st sid now).errorSignature with
        | none => exact hA
        | some s0 =>
          exact activePreserved_trans hA (activePreserved_consider _ _ _ _)

theorem activePreserved_foldl_reflect (now : Nat) :
    ∀ (ids : List Nat) (st : Store),
      ActivePreserved st (ids.foldl (fun acc sid => reflectOnSession acc sid now) st) := by
  intro ids
  induction ids with
  | nil => intro st; exact activePreserved_refl st
  | cons i t ih =>
    intro st
    exact activePreserved_trans (activePreserved_reflect st i now)
      (ih (reflectOnSession st i now))

theorem activePreserved_reflectPending (st : Store) (now : Nat) :
    ActivePreserved st (reflectOnPendingSessions st now) := by
  unfold reflectOnPendingSessions
  exact activePreserved_foldl_reflect now _ st

theorem activePreserved_maintenance (st : Store) (now : Nat) :
    ActivePreserved st (runMaintenanceCycle st now) := by
  unfold runMaintenanceCycle archiveLowConfidencePlaybooks
  exact activePreserved_trans (activePreserved_reflectPending st now)
    (activePreserved_decay _ now)

theorem activePreserved_endSession (st : Store) (sid : Nat) (outcome : String)
    (summary : Option String) (fix : Option Nat) (now : Nat) :
    ActivePreserved st ((endSession st sid outcome summary fix now).getD st) := by
  unfold endSession
  cases hs : getSession st sid with
  | none => exact activePreserved_refl st
  | some session =>
    dsimp only [Option.getD]
    by_cases hc : outcome = "COMPLETED"
    · rw [if_pos hc]
      exact activePreserved_trans (activePreserved_of_playbooks_eq rfl)
        (activePreserved_reflect _ sid now)
    · rw [if_neg hc]
      exact activePreserved_of_playbooks_eq rfl

/-- **C10** (confirmed): every playbook returned by `findPlaybooks` — by
the exact branch or by the fuzzy fallback — has status ACTIVE; the
Reflector's `createPlaybook` appends a DRAFT row; and no operation of this
core turns any playbook row ACTIVE (every ACTIVE row after an operation
descends from an ACTIVE row with the same id) — hence automatically created
playbooks are never returned by `findPlaybooks`. -/
theorem findPlaybooks_active_only :
    (∀ (st : Store) (sig : String) (limit : Nat) (pb : Playbook),
        pb ∈ findPlaybooks st sig limit → pb.status = "ACTIVE") ∧
    (∀ (st : Store) (analysis : SessionAnalysis) (session : DevSession)
        (pat : UniversalPattern) (now : Nat),
        ∃ r, (createPlaybook st analysis session pat now).playbooks =
            st.playbooks ++ [r] ∧ r.status = "DRAFT") ∧
    (∀ (st : Store) (op : WikiOp) (now : Nat),
        ActivePreserved st (applyOp st op now)) := by
  refine ⟨?_, ?_, ?_⟩
  · intro st sig limit pb hpb
    unfold findPlaybooks at hpb
    dsimp only at hpb
    split at hpb
    · have hmem := List.take_subset limit _ hpb
      have hfil := List.mem_filter.mp (mem_sortByStable.mp hmem)
      have := hfil.2
      simp only [Bool.and_eq_true, beq_iff_eq] at this
      exact this.2
    · have hmem := List.take_subset limit _ hpb
      rcases List.mem_map.mp (mem_sortByStable.mp hmem) with ⟨pr, hpr, heq⟩
      have hfst := (List.mem_product.mp hpr).1
      have hfil := List.mem_filter.mp hfst
      have := hfil.2
      simp only [beq_iff_eq] at this
      rw [← heq]
      exact this
  · intro st analysis session pat now
    exact ⟨_, rfl, rfl⟩
  · intro st op now
    cases op with
    | opStartSession pid goal => exact activePreserved_of_playbooks_eq rfl
    | opEndSession sid outcome summary fix =>
      exact activePreserved_endSession st sid outcome summary fix now
    | opAddJournalEntry e => exact activePreserved_of_playbooks_eq rfl
    | opLogHypothesis pid sid parent hyp tags =>
      exact activePreserved_of_playbooks_eq rfl
    | opLogToolCall pid sid parent tool argsRepr =>
      exact activePreserved_of_playbooks_eq rfl
    | opLogObservation pid sid parent obs outcome =>
      exact activePreserved_of_playbooks_eq rfl
    | opRecordTestRun pid sid run => exact activePreserved_of_playbooks_eq rfl
    | opRecordTestResults runId results =>
      exact activePreserved_of_playbooks_eq rfl
    | opRecordPlaybookUsage pb sid helpful feedback =>
      exact activePreserved_trans (activePreserved_of_playbooks_eq rfl)
        (activePreserved_evolvePlaybook _ pb helpful sid now)
    | opReflectOnSession sid => exact activePreserved_reflect st sid now
    | opReflectOnPending => exact activePreserved_reflectPending st now
    | opRunMaintenance => exact activePreserved_maintenance st now

theorem findPlaybooks_active_only_witness :
    ex7Playbook ∈ findPlaybooks ex10Store "Error: boom" 5 ∧
    ex7Playbook.status = "ACTIVE" ∧
    ∃ r, (createPlaybook ex8Store ex8Analysis exSession1 ex8Pattern 9).playbooks =
        ex8Store.playbooks ++ [r] ∧ r.status = "DRAFT" := by
  have hmem : ex7Playbook ∈ findPlaybooks ex10Store "Error: boom" 5 := by
    simp [findPlaybooks, ex10Store, ex7Playbook, emptyStore, sortByStable,
      insertSorted]
  exact ⟨hmem,
    findPlaybooks_active_only.1 ex10Store "Error: boom" 5 ex7Playbook hmem,
    findPlaybooks_active_only.2.1 ex8Store ex8Analysis exSession1 ex8Pattern 9⟩

/-- The session journal is sorted by timestamp. -/
theorem getSessionJournal_pairwise (st : Store) (sid : Nat) :
    (getSessionJournal st sid).Pairwise
      (fun a b => decide (a.timestamp ≤ b.timestamp) = true) := by
  unfold getSessionJournal
  refine sorted_sortByStable ?_ ?_ _
  · intro a b c hab hbc
    simp only [decide_eq_true_iff] at hab hbc ⊢
    omega
  · intro a b
    simp only [decide_eq_true_iff]
    omega

/-- **C1** (corrected, amended): for a session with at least one
AI_HYPOTHESIS strictly before the timestamp of the **last** (latest)
passing TEST_RUN — the run `testRuns.reverse().find(...)` selects — the
analysis selects exactly one winning hypothesis, and it is the
chronologically last AI_HYPOTHESIS with a timestamp strictly before that
run's timestamp. -/
theorem analyzeSession_winner_corrected (st : Store) (sid now : Nat)
    (sr : JournalEntry)
    (hsr : ((getSessionJournal st sid).filter
        (fun e => e.entry_type == "TEST_RUN")).reverse.find? entryPassed = some sr)
    (hex : ∃ h0 ∈ (getSessionJournal st sid).filter
        (fun e => e.entry_type == "AI_HYPOTHESIS"), h0.timestamp < sr.timestamp) :
    ∃ w, (analyzeSession st sid now).winningHypothesis = some w ∧
      w ∈ (getSessionJournal st sid).filter
        (fun e => e.entry_type == "AI_HYPOTHESIS") ∧
      w.timestamp < sr.timestamp ∧
      ∀ h ∈ (getSessionJournal st sid).filter
          (fun e => e.entry_type == "AI_HYPOTHESIS"),
        h.timestamp < sr.timestamp → h.timestamp ≤ w.timestamp := by
  obtain ⟨h0, hh0, hlt⟩ := hex
  have hF : h0 ∈ ((getSessionJournal st sid).filter
      (fun e => e.entry_type == "AI_HYPOTHESIS")).filter
        (fun h => decide (h.timestamp < sr.timestamp)) :=
    List.mem_filter.mpr ⟨hh0, by simpa using hlt⟩
  have hFne := List.ne_nil_of_mem hF
  obtain ⟨w, hw⟩ := Option.isSome_iff_exists.mp (List.getLast?_isSome.mpr hFne)
  have hout : (analyzeSession st sid now).winningHypothesis =
      (((getSessionJournal st sid).filter
          (fun e => e.entry_type == "AI_HYPOTHESIS")).filter
        (fun h => decide (h.timestamp < sr.timestamp))).getLast? := by
    unfold analyzeSession
    dsimp only
    rw [hsr]
  have hwmem := List.mem_filter.mp
    ((List.getLast?_eq_some_iff.mp hw).elim fun ys hys => by
      rw [hys]
      exact List.mem_append_right ys (List.mem_singleton.mpr rfl))
  have hpair : (((getSessionJournal st sid).filter
      (fun e => e.entry_type == "AI_HYPOTHESIS")).filter
        (fun h => decide (h.timestamp < sr.timestamp))).Pairwise
      (fun a b => a.timestamp ≤ b.timestamp) := by
    have h1 := (getSessionJournal_pairwise st sid).filter
      (fun e => e.entry_type == "AI_HYPOTHESIS")
    have h2 := h1.filter (fun h => decide (h.timestamp < sr.timestamp))
    exact h2.imp (fun hab => by simpa using hab)
  have hmax := getLast_max
    (R := fun a b : JournalEntry => a.timestamp ≤ b.timestamp)
    (fun a => Nat.le_refl a.timestamp) hpair hw
  refine ⟨w, ?_, hwmem.1, by simpa using hwmem.2, ?_⟩
  · rw [hout, hw]
  · intro h hh hhlt
    exact hmax h (List.mem_filter.mpr ⟨hh, by simpa using hhlt⟩)

theorem analyzeSession_winner_corrected_witness :
    ((getSessionJournal ex1Store 1).filter
        (fun e => e.entry_type == "TEST_RUN")).reverse.find? entryPassed =
      some (exEntry 4 40 "TEST_RUN" "Test run: PASSED (10/10 passed)" passedDetails) ∧
    (∃ h0 ∈ (getSessionJournal ex1Store 1).filter
        (fun e => e.entry_type == "AI_HYPOTHESIS"),
      h0.timestamp <
        (exEntry 4 40 "TEST_RUN" "Test run: PASSED (10/10 passed)"
          passedDetails).timestamp) ∧
    ∃ w, (analyzeSession ex1Store 1 1000).winningHypothesis = some w ∧
      w ∈ (getSessionJournal ex1Store 1).filter
        (fun e => e.entry_type == "AI_HYPOTHESIS") ∧
      w.timestamp <
        (exEntry 4 40 "TEST_RUN" "Test run: PASSED (10/10 passed)"
          passedDetails).timestamp ∧
      ∀ h ∈ (getSessionJournal ex1Store 1).filter
          (fun e => e.entry_type == "AI_HYPOTHESIS"),
        h.timestamp <
            (exEntry 4 40 "TEST_RUN" "Test run: PASSED (10/10 passed)"
              passedDetails).timestamp →
          h.timestamp ≤ w.timestamp :=
  ⟨by decide, by decide,
    analyzeSession_winner_corrected ex1Store 1 1000
      (exEntry 4 40 "TEST_RUN" "Test run: PASSED (10/10 passed)" passedDetails)
      (by decide) (by decide)⟩

/-! ## Helper lemmas: character-class facts -/

theorem char_ne_of_class {p : Char → Bool} {e d : Char} (he : p e = true)
    (hd : p d = false) : e ≠ d := by
  intro h; subst h; simp [hd] at he

theorem isSpaceChar_eq_false {e : Char} (h1 : e ≠ ' ') (h2 : e ≠ '\t')
    (h3 : e ≠ '\n') (h4 : e ≠ '\r') (h5 : e ≠ '\x0b') (h6 : e ≠ '\x0c') :
    isSpaceChar e = false := by
  simp [isSpaceChar, h1, h2, h3, h4, h5, h6]

theorem isSlashChar_eq_false {e : Char} (h1 : e ≠ '/') (h2 : e ≠ '\\') :
    isSlashChar e = false := by
  simp [isSlashChar, h1, h2]

theorem plain_facts {c : Char} (h : plainChar c = true) :
    isSlashChar c = false ∧ isDigitChar c = false ∧
    (isSpaceChar c = false ∨ c = ' ') ∧ c ≠ '-' ∧ c ≠ '"' ∧ c ≠ '\'' := by
  simp only [plainChar, Bool.and_eq_true, Bool.not_eq_true', Bool.or_eq_true,
    bne_iff_ne, ne_eq, beq_iff_eq] at h
  tauto

theorem plain_not_slash {c : Char} (h : plainChar c = true) :
    isSlashChar c = false := (plain_facts h).1

theorem plain_not_digit {c : Char} (h : plainChar c = true) :
    isDigitChar c = false := (plain_facts h).2.1

theorem plain_not_char0 {c : Char} (h : plainChar c = true) :
    (c == '0') = false := by
  by_cases hc : c = '0'
  · rw [hc] at h; exact absurd h (by decide)
  · simp [hc]

theorem plain_not_dash {c : Char} (h : plainChar c = true) :
    (c == '-') = false := by
  have := (plain_facts h).2.2.2.1; simp [this]

theorem plain_not_quote {c : Char} (h : plainChar c = true) :
    (c == '"') = false := by
  have := (plain_facts h).2.2.2.2.1; simp [this]

theorem plain_not_squote {c : Char} (h : plainChar c = true) :
    (c == '\'') = false := by
  have := (plain_facts h).2.2.2.2.2; simp [this]

theorem plain_not_newline {c : Char} (h : plainChar c = true) :
    (c != '\n') = true := by
  by_cases hc : c = '\n'
  · rw [hc] at h; exact absurd h (by decide)
  · simp [hc]

theorem plain_space_eq {c : Char} (h : plainChar c = true)
    (hs : isSpaceChar c = true) : c = ' ' := by
  rcases (plain_facts h).2.2.1 with h' | h'
  · rw [h'] at hs; exact absurd hs (by decide)
  · exact h'

theorem isPathChar_not_newline {e : Char} (h : isPathChar e = true) :
    (e != '\n') = true := by
  by_cases hc : e = '\n'
  · rw [hc] at h; exact absurd h (by decide)
  · simp [hc]

theorem digit_not_space {e : Char} (h : isDigitChar e = true) :
    isSpaceChar e = false :=
  isSpaceChar_eq_false (char_ne_of_class h (by decide))
    (char_ne_of_class h (by decide)) (char_ne_of_class h (by decide))
    (char_ne_of_class h (by decide)) (char_ne_of_class h (by decide))
    (char_ne_of_class h (by decide))

theorem digit_not_slash {e : Char} (h : isDigitChar e = true) :
    isSlashChar e = false :=
  isSlashChar_eq_false (char_ne_of_class h (by decide))
    (char_ne_of_class h (by decide))

theorem digit_not_newline {e : Char} (h : isDigitChar e = true) :
    (e != '\n') = true := by
  have := char_ne_of_class h (show isDigitChar '\n' = false by decide)
  simp [this]

/-! ## Helper lemmas: `countWhile` -/

theorem countWhile_cons_neg {p : Char → Bool} {c : Char} {cs : List Char}
    (h : p c = false) : countWhile p (c :: cs) = 0 := by
  simp [countWhile, List.takeWhile_cons, h]

theorem countWhile_cons_pos {p : Char → Bool} {c : Char} {cs : List Char}
    (h : p c = true) : countWhile p (c :: cs) = countWhile p cs + 1 := by
  simp [countWhile, List.takeWhile_cons, h]

theorem countWhile_head_zero {p : Char → Bool} : ∀ {cs : List Char},
    (∀ e, cs.head? = some e → p e = false) → countWhile p cs = 0 := by
  intro cs h
  cases cs with
  | nil => rfl
  | cons c cs' => exact countWhile_cons_neg (h c rfl)

theorem countWhile_of_all {p : Char → Bool} : ∀ {cs : List Char},
    cs.all p = true → countWhile p cs = cs.length := by
  intro cs
  induction cs with
  | nil => intro _; rfl
  | cons c cs ih =>
    intro h
    rw [List.all_cons, Bool.and_eq_true] at h
    rw [countWhile_cons_pos h.1, ih h.2, List.length_cons]

theorem countWhile_all_stop {p : Char → Bool} {ys : List Char}
    (hys : ∀ e, ys.head? = some e → p e = false) :
    ∀ {xs : List Char}, xs.all p = true →
      countWhile p (xs ++ ys) = xs.length := by
  intro xs
  induction xs with
  | nil => intro _; simpa using countWhile_head_zero hys
  | cons x xs ih =>
    intro h
    rw [List.all_cons, Bool.and_eq_true] at h
    rw [List.cons_append, countWhile_cons_pos h.1, ih h.2, List.length_cons]

theorem countWhile_append_zero {p : Char → Bool} {v : List Char}
    (hv : countWhile p v = 0) :
    ∀ u : List Char, countWhile p (u ++ v) = countWhile p u := by
  intro u
  induction u with
  | nil => simpa using hv
  | cons x u ih =>
    cases hx : p x with
    | true => rw [List.cons_append, countWhile_cons_pos hx, ih, countWhile_cons_pos hx]
    | false => rw [List.cons_append, countWhile_cons_neg hx, countWhile_cons_neg hx]

/-! ## Helper lemmas: `noLongHexRun` -/

theorem noLongHexRun_suffix : ∀ (a : List Char) {r : List Char},
    noLongHexRun (a ++ r) = true → noLongHexRun r = true := by
  intro a
  induction a with
  | nil => intro r h; exact h
  | cons x a ih =>
    intro r h
    rw [List.cons_append] at h
    simp only [noLongHexRun, Bool.and_eq_true] at h
    exact ih h.2

theorem noLongHexRun_head {c : Char} {cs : List Char}
    (h : noLongHexRun (c :: cs) = true) :
    countWhile isHexChar (c :: cs) < 16 := by
  simp only [noLongHexRun, Bool.and_eq_true, decide_eq_true_eq] at h
  exact h.1

theorem noLongHexRun_of_nonhex : ∀ {ys : List Char},
    (∀ e ∈ ys, isHexChar e = false) → noLongHexRun ys = true := by
  intro ys
  induction ys with
  | nil => intro _; rfl
  | cons e ys ih =>
    intro h
    simp only [noLongHexRun, Bool.and_eq_true, decide_eq_true_eq]
    refine ⟨?_, ih fun x hx => h x (List.mem_cons_of_mem _ hx)⟩
    rw [countWhile_cons_neg (h e (List.mem_cons_self e ys))]
    omega

theorem noLongHexRun_append {ys : List Char}
    (hy : ∀ e ∈ ys, isHexChar e = false) :
    ∀ {xs : List Char}, noLongHexRun xs = true →
      noLongHexRun (xs ++ ys) = true := by
  intro xs
  induction xs with
  | nil => intro _; exact noLongHexRun_of_nonhex hy
  | cons c xs ih =>
    intro h
    simp only [noLongHexRun, Bool.and_eq_true, decide_eq_true_eq] at h
    have hcw : countWhile isHexChar ys = 0 := by
      cases ys with
      | nil => rfl
      | cons y ys' => exact countWhile_cons_neg (hy y (List.mem_cons_self y ys'))
    rw [List.cons_append]
    simp only [noLongHexRun, Bool.and_eq_true, decide_eq_true_eq]
    refine ⟨?_, ih h.2⟩
    rw [← List.cons_append, countWhile_append_zero hcw]
    exact h.1

theorem all_split {p : Char → Bool} {xs a b : List Char} {c : Char}
    (hxs : xs.all p = true) (hs : xs = a ++ c :: b) :
    p c = true ∧ b.all p = true := by
  subst hs
  simp only [List.all_append, List.all_cons, Bool.and_eq_true] at hxs
  exact ⟨hxs.2.1, hxs.2.2⟩

theorem all_cons_mem {p : Char → Bool} {c : Char} {b : List Char}
    (hc : p c = true) (hb : b.all p = true) : ∀ e ∈ c :: b, p e = true := by
  intro e he
  rcases List.mem_cons.mp he with h | h
  · rw [h]; exact hc
  · exact List.all_eq_true.mp hb e h

theorem noLongHexRun_split {xs a b : List Char} {c : Char}
    (h : noLongHexRun xs = true) (hs : xs = a ++ c :: b) :
    countWhile isHexChar (c :: b) < 16 :=
  noLongHexRun_head (noLongHexRun_suffix a (hs ▸ h))

theorem head_mem {b : List Char} {e : Char} (he : b.head? = some e) : e ∈ b := by
  cases b with
  | nil => exact Option.noConfusion he
  | cons d t =>
    have hde := Option.some.inj he
    subst hde
    exact List.mem_cons_self _ _

/-! ## Helper lemmas: where each matcher fails -/

theorem matchPath_none_of_no_slash : ∀ {cs : List Char},
    (∀ e ∈ cs, isSlashChar e = false) → matchPath cs = none := by
  intro cs h
  cases cs with
  | nil => rfl
  | cons c1 rest =>
    have h1 := h c1 (List.mem_cons_self _ _)
    cases rest with
    | nil => simp [matchPath, slashGroups, h1]
    | cons c2 r =>
      cases hdr : (isAsciiAlpha c1 && c2 == ':') with
      | true =>
        cases r with
        | nil => simp [matchPath, hdr, slashGroups]
        | cons e r' =>
          have he := h e (by simp)
          simp [matchPath, hdr, slashGroups, he]
      | false => simp [matchPath, hdr, slashGroups, h1]

theorem matchPath_none_head {c : Char} (t : List Char)
    (h1 : isSlashChar c = false) (h2 : isAsciiAlpha c = false) :
    matchPath (c :: t) = none := by
  cases t with
  | nil => simp [matchPath, slashGroups, h1]
  | cons d r => simp [matchPath, slashGroups, h1, h2]

theorem matchPath_none_cons2 {c0 d : Char} {r : List Char}
    (hc0 : isSlashChar c0 = false)
    (hdr : (isAsciiAlpha c0 && d == ':') = true →
      ∃ e r', r = e :: r' ∧ isSlashChar e = false) :
    matchPath (c0 :: d :: r) = none := by
  cases hD : (isAsciiAlpha c0 && d == ':') with
  | false => simp [matchPath, hD, slashGroups, hc0]
  | true =>
    obtain ⟨e, r', hr, he⟩ := hdr hD
    subst hr
    simp [matchPath, hD, slashGroups, he]

theorem matchLineCol_none_head {c0 : Char} {t : List Char}
    (h : c0 = ':' → ∀ e, t.head? = some e → isDigitChar e = false) :
    matchLineCol (c0 :: t) = none := by
  cases hc : (c0 == ':') with
  | false => simp [matchLineCol, hc]
  | true =>
    have hc' : c0 = ':' := by simpa using hc
    have hz : countWhile isDigitChar t = 0 := countWhile_head_zero (h hc')
    simp [matchLineCol, hc, hz]

theorem matchHexAddr_none_head {c : Char} {t : List Char}
    (h : (c == '0') = false) : matchHexAddr (c :: t) = none := by
  cases t with
  | nil => rfl
  | cons d r => simp [matchHexAddr, h]

theorem matchUuid_none {c : Char} {b : List Char}
    (h : ∀ e ∈ c :: b, (e == '-') = false) : matchUuid (c :: b) = none := by
  unfold matchUuid
  cases h8 : hexBlock 8 (c :: b) with
  | none => rfl
  | some r1 =>
    have hr1 : r1 = (c :: b).drop 8 := by
      unfold hexBlock at h8
      split at h8
      · exact (Option.some.inj h8).symm
      · exact Option.noConfusion h8
    have hd : dashThen r1 = none := by
      rw [hr1]
      cases hdr : (c :: b).drop 8 with
      | nil => rfl
      | cons e r' =>
        have he : e ∈ (c :: b) :=
          (List.drop_suffix 8 (c :: b)).subset
            (by rw [hdr]; exact List.mem_cons_self e r')
        simp [dashThen, h e he]
    simp [hd]

theorem matchLongNumber_none_head {pv : Option Char} {c : Char} {b : List Char}
    (h : isDigitChar c = false) : matchLongNumber pv (c :: b) = none := by
  unfold matchLongNumber
  cases hb : leftBoundaryOk pv with
  | false => simp [hb]
  | true => simp [hb, countWhile_cons_neg h]

theorem matchLongHex_none {pv : Option Char} {cs : List Char}
    (h : countWhile isHexChar cs < 16) : matchLongHex pv cs = none := by
  unfold matchLongHex
  cases hb : leftBoundaryOk pv with
  | false => simp [hb]
  | true =>
    have hn : ¬ 16 ≤ countWhile isHexChar cs := Nat.not_le.mpr h
    simp [hb, hn]

theorem matchQuoted_none {q c : Char} {b : List Char}
    (h : (c == q) = false) : matchQuoted q (c :: b) = none := by
  simp [matchQuoted, h]

/-! ## Helper lemmas: the scanner `stripGo` -/

theorem stripGo_nil (m : Option Char → List Char → Option Nat) (k : Nat)
    (prev : Option Char) : stripGo m k prev [] = [] := by
  cases k <;> rfl

theorem stripGo_id (m : Option Char → List Char → Option Nat) :
    ∀ (xs : List Char) (prev : Option Char),
      (∀ (a : List Char) (c : Char) (b : List Char), xs = a ++ c :: b →
        ∀ pv, m pv (c :: b) = none) →
      stripGo m 0 prev xs = xs := by
  intro xs
  induction xs with
  | nil => intro prev _; rfl
  | cons c cs ih =>
    intro prev h
    have hc := h [] c cs rfl prev
    simp only [stripGo, hc]
    exact congrArg (List.cons c)
      (ih (some c) fun a c' b hab pv =>
        h (c :: a) c' b (by rw [hab, List.cons_append]) pv)

theorem stripGo_append_none (m : Option Char → List Char → Option Nat) :
    ∀ (xs : List Char) (prev : Option Char) (rest : List Char),
      (∀ (a : List Char) (c : Char) (b : List Char), xs = a ++ c :: b →
        ∀ pv, m pv (c :: (b ++ rest)) = none) →
      stripGo m 0 prev (xs ++ rest) =
        xs ++ stripGo m 0
          (match xs.getLast? with | some c => some c | none => prev) rest := by
  intro xs
  induction xs with
  | nil => intro prev rest _; rfl
  | cons c cs ih =>
    intro prev rest h
    have hc : m prev (c :: (cs ++ rest)) = none := h [] c cs rfl prev
    rw [List.cons_append]
    simp only [stripGo, hc]
    rw [ih (some c) rest fun a c' b hab pv =>
      h (c :: a) c' b (by rw [hab, List.cons_append]) pv]
    cases cs with
    | nil => simp
    | cons d ds => rw [List.getLast?_cons_cons]; rfl

theorem matchLast_cons_eq {d : Char} {ds : List Char} (a b : Option Char) :
    (match (d :: ds).getLast? with | some c => some c | none => a) =
    (match (d :: ds).getLast? with | some c => some c | none => b) := by
  have h : ((d :: ds).getLast?).isSome := by
    rw [List.getLast?_isSome]
    simp
  obtain ⟨v, hv⟩ := Option.isSome_iff_exists.mp h
  rw [hv]

theorem stripGo_skip (m : Option Char → List Char → Option Nat) :
    ∀ (xs : List Char) (prev : Option Char) (rest : List Char),
      stripGo m xs.length prev (xs ++ rest) =
        stripGo m 0
          (match xs.getLast? with | some c => some c | none => prev) rest := by
  intro xs
  induction xs with
  | nil => intro prev rest; rfl
  | cons c cs ih =>
    intro prev rest
    rw [List.cons_append]
    simp only [List.length_cons, stripGo]
    rw [ih (some c) rest]
    cases cs with
    | nil => simp
    | cons d ds =>
      rw [List.getLast?_cons_cons]
      exact congrArg (fun o => stripGo m 0 o rest) (matchLast_cons_eq (some c) prev)

theorem stripGo_skip_all (m : Option Char → List Char → Option Nat)
    (xs : List Char) (prev : Option Char) :
    stripGo m xs.length prev xs = [] := by
  have h := stripGo_skip m xs prev []
  rw [List.append_nil] at h
  rw [h]
  exact stripGo_nil m 0 _

/-! ## Helper lemmas: the tail stages of the pipeline -/

theorem takeFirstLine_id : ∀ {cs : List Char},
    (∀ e ∈ cs, (e != '\n') = true) → takeFirstLine cs = cs := by
  intro cs
  induction cs with
  | nil => intro _; rfl
  | cons c cs ih =>
    intro h
    unfold takeFirstLine
    rw [List.takeWhile_cons, if_pos (h c (List.mem_cons_self _ _))]
    exact congrArg (List.cons c)
      (ih fun e he => h e (List.mem_cons_of_mem _ he))

theorem dropWhile_head_id {p : Char → Bool} : ∀ {cs : List Char},
    (∀ e, cs.head? = some e → p e = false) → cs.dropWhile p = cs := by
  intro cs h
  cases cs with
  | nil => rfl
  | cons c cs' =>
    rw [List.dropWhile_cons]
    simp [h c rfl]

theorem trimChars_id {cs : List Char}
    (hh : ∀ e, cs.head? = some e → isSpaceChar e = false)
    (hl : ∀ e, cs.getLast? = some e → isSpaceChar e = false) :
    trimChars cs = cs := by
  unfold trimChars
  rw [dropWhile_head_id hh]
  rw [dropWhile_head_id (by intro e he; rw [List.head?_reverse] at he; exact hl e he)]
  exact List.reverse_reverse cs

theorem collapseGo_id : ∀ (cs : List Char) (b : Bool),
    cs.all plainChar = true → noAdjSpace cs = true →
    (b = true → ∀ e, cs.head? = some e → isSpaceChar e = false) →
    collapseGo b cs = cs := by
  intro cs
  induction cs with
  | nil => intro b _ _ _; rfl
  | cons c cs ih =>
    intro b hp hadj hb
    rw [List.all_cons, Bool.and_eq_true] at hp
    cases hs : isSpaceChar c with
    | false =>
      simp only [collapseGo, hs]
      refine congrArg (List.cons c) (ih false hp.2 ?_ ?_)
      · cases cs with
        | nil => rfl
        | cons d ds =>
          simp only [noAdjSpace, Bool.and_eq_true] at hadj
          exact hadj.2
      · intro hft; exact absurd hft (by decide)
    | true =>
      have hceq : c = ' ' := plain_space_eq hp.1 hs
      subst hceq
      cases b with
      | true => exact absurd hs (by simp [hb rfl ' ' rfl])
      | false =>
        simp only [collapseGo, hs]
        refine congrArg (List.cons ' ') (ih true hp.2 ?_ ?_)
        · cases cs with
          | nil => rfl
          | cons d ds =>
            simp only [noAdjSpace, Bool.and_eq_true] at hadj
            exact hadj.2
        · intro _ e he
          cases cs with
          | nil => exact Option.noConfusion he
          | cons d ds =>
            have hde := Option.some.inj he
            subst hde
            simp only [noAdjSpace, Bool.and_eq_true] at hadj
            have := hadj.1
            rw [hs] at this
            simpa using this

/-! ## Helper lemmas: identity of the six head-anchored passes -/

theorem strip38_id {z : List Char} (hp : z.all plainChar = true)
    (hh : noLongHexRun z = true) :
    stripScan (fun _ => matchQuoted '\'')
      (stripScan (fun _ => matchQuoted '"')
        (stripScan matchLongHex
          (stripScan matchLongNumber
            (stripScan (fun _ => matchUuid)
              (stripScan (fun _ => matchHexAddr) z))))) = z := by
  have q3 : stripScan (fun _ => matchHexAddr) z = z := by
    unfold stripScan
    exact stripGo_id _ z none fun a c b hab pv =>
      matchHexAddr_none_head (plain_not_char0 (all_split hp hab).1)
  have q4 : stripScan (fun _ => matchUuid) z = z := by
    unfold stripScan
    refine stripGo_id _ z none fun a c b hab pv => matchUuid_none ?_
    have hcb := all_split hp hab
    exact fun e he => plain_not_dash (all_cons_mem hcb.1 hcb.2 e he)
  have q5 : stripScan matchLongNumber z = z := by
    unfold stripScan
    exact stripGo_id _ z none fun a c b hab pv =>
      matchLongNumber_none_head (plain_not_digit (all_split hp hab).1)
  have q6 : stripScan matchLongHex z = z := by
    unfold stripScan
    exact stripGo_id _ z none fun a c b hab pv =>
      matchLongHex_none (noLongHexRun_split hh hab)
  have q7 : stripScan (fun _ => matchQuoted '"') z = z := by
    unfold stripScan
    exact stripGo_id _ z none fun a c b hab pv =>
      matchQuoted_none (plain_not_quote (all_split hp hab).1)
  have q8 : stripScan (fun _ => matchQuoted '\'') z = z := by
    unfold stripScan
    exact stripGo_id _ z none fun a c b hab pv =>
      matchQuoted_none (plain_not_squote (all_split hp hab).1)
  rw [q3, q4, q5, q6, q7, q8]

/-- Any string whose characters are all plain, with no 16-run of hex
characters, no adjacent whitespace, non-whitespace edges and length in
`[5, 200)` is a fixed point of the canonicalizer. -/
theorem sig_fixed {y : String}
    (h1 : y.toList.all plainChar = true)
    (h2 : noLongHexRun y.toList = true)
    (h3 : noAdjSpace y.toList = true)
    (h4 : edgeNonSpace y.toList = true)
    (h5 : y.toList.length < 200)
    (h6 : 5 ≤ y.toList.length) :
    generateErrorSignature y = y := by
  have hvne : y ≠ "" := by
    intro h
    rw [h] at h6
    simp at h6
  unfold edgeNonSpace at h4
  rw [Bool.and_eq_true] at h4
  have hhead : ∀ e, y.toList.head? = some e → isSpaceChar e = false := by
    intro e he
    have := h4.1
    rw [he] at this
    simpa using this
  have hlast : ∀ e, y.toList.getLast? = some e → isSpaceChar e = false := by
    intro e he
    have := h4.2
    rw [he] at this
    simpa using this
  have hplain : ∀ e ∈ y.toList, plainChar e = true := List.all_eq_true.mp h1
  have e1 : takeFirstLine y.toList = y.toList :=
    takeFirstLine_id fun e he => plain_not_newline (hplain e he)
  have e2 : trimChars y.toList = y.toList := trimChars_id hhead hlast
  have e3 : stripPatterns y.toList = y.toList := by
    unfold stripPatterns
    have p1 : stripScan (fun _ => matchPath) y.toList = y.toList := by
      unfold stripScan
      refine stripGo_id _ y.toList none fun a c b hab pv =>
        matchPath_none_of_no_slash fun e he => plain_not_slash ?_
      exact hplain e (by rw [hab]; exact List.mem_append_right a he)
    have p2 : stripScan (fun _ => matchLineCol) y.toList = y.toList := by
      unfold stripScan
      refine stripGo_id _ y.toList none fun a c b hab pv =>
        matchLineCol_none_head fun hc e he => ?_
      have hcb := all_split h1 hab
      exact plain_not_digit (List.all_eq_true.mp hcb.2 e (head_mem he))
    dsimp only
    rw [p1, p2]
    exact strip38_id h1 h2
  have e4 : collapseWs y.toList = y.toList := by
    unfold collapseWs
    exact collapseGo_id y.toList false h1 h3 fun h => absurd h (by decide)
  have e5 : (y.toList).take 200 = y.toList := List.take_of_length_le (by omega)
  unfold generateErrorSignature
  rw [if_neg hvne]
  dsimp only
  rw [e1, e2, e3, e4, e2, e5]
  rw [if_neg (by omega : ¬ y.toList.length < 5)]
  rfl

/-! ## Helper lemmas: the path match -/

theorem mem_renderPath {e : Char} : ∀ {comps : List (List Char)},
    e ∈ renderPath comps → e = '/' ∨ ∃ comp ∈ comps, e ∈ comp := by
  intro comps
  induction comps with
  | nil => intro h; simp [renderPath] at h
  | cons comp comps ih =>
    intro h
    simp only [renderPath, List.mem_cons, List.mem_append] at h
    rcases h with h | h | h
    · exact Or.inl h
    · exact Or.inr ⟨comp, List.mem_cons_self _ _, h⟩
    · rcases ih h with h' | ⟨c2, hc2, he⟩
      · exact Or.inl h'
      · exact Or.inr ⟨c2, List.mem_cons_of_mem _ hc2, he⟩

theorem pathComp_comp : ∀ (comp : List Char) (r : List Char) (n : Nat),
    comp.all isPathChar = true →
    pathComp (comp ++ r) n = pathComp r (n + comp.length) := by
  intro comp
  induction comp with
  | nil => intro r n _; simp
  | cons x comp ih =>
    intro r n h
    rw [List.all_cons, Bool.and_eq_true] at h
    rw [List.cons_append]
    simp only [pathComp, h.1, if_true]
    rw [ih r (n + 1) h.2]
    congr 1
    simp [List.length_cons]
    omega

theorem pathComp_render : ∀ (comps : List (List Char)) (tail : List Char)
    (n : Nat),
    (∀ comp ∈ comps, comp ≠ [] ∧ comp.all isPathChar = true) →
    (∀ e, tail.head? = some e → isPathChar e = false ∧ isSlashChar e = false) →
    n ≠ 0 →
    pathComp (renderPath comps ++ tail) n =
      (comps.length + 1, n + 1 + (renderPath comps).length) := by
  intro comps
  induction comps with
  | nil =>
    intro tail n _ htail hn
    simp only [renderPath, List.nil_append]
    cases tail with
    | nil => simp [pathComp, hn, Nat.add_comm]
    | cons e t =>
      obtain ⟨hp, hs⟩ := htail e rfl
      simp [pathComp, hp, hs, hn, Nat.add_comm]
  | cons comp comps ih =>
    intro tail n hcomps htail hn
    obtain ⟨hne, hall⟩ := hcomps comp (List.mem_cons_self _ _)
    have hcomps' := fun c hc => hcomps c (List.mem_cons_of_mem _ hc)
    have hlen : comp.length ≠ 0 := by
      cases comp with
      | nil => exact absurd rfl hne
      | cons _ _ => simp
    rw [show renderPath (comp :: comps) = '/' :: (comp ++ renderPath comps)
      from rfl, List.cons_append, List.append_assoc]
    simp only [pathComp]
    rw [if_neg (by decide : ¬ isPathChar '/' = true), if_neg hn,
      if_pos (by decide : isSlashChar '/' = true)]
    rw [pathComp_comp comp _ 0 hall]
    rw [ih tail (0 + comp.length) hcomps' htail (by omega)]
    simp only [Prod.mk.injEq, List.length_cons, List.length_append]
    exact ⟨trivial, by omega⟩

theorem matchPath_render {comps : List (List Char)} {tail : List Char}
    (hcomps : ∀ comp ∈ comps, comp ≠ [] ∧ comp.all isPathChar = true)
    (h2 : 2 ≤ comps.length)
    (htail : ∀ e, tail.head? = some e →
      isPathChar e = false ∧ isSlashChar e = false) :
    matchPath (renderPath comps ++ tail) = some (renderPath comps).length := by
  cases comps with
  | nil => simp at h2
  | cons comp1 comps' =>
    obtain ⟨hne, hall⟩ := hcomps comp1 (List.mem_cons_self _ _)
    have hcomps' := fun c hc => hcomps c (List.mem_cons_of_mem _ hc)
    cases hc1 : comp1 with
    | nil => exact absurd hc1 hne
    | cons x xs =>
      subst hc1
      rw [show renderPath ((x :: xs) :: comps') =
        '/' :: ((x :: xs) ++ renderPath comps') from rfl]
      rw [List.cons_append, List.append_assoc, List.cons_append]
      simp only [matchPath]
      rw [if_neg (by
        simp [show isAsciiAlpha '/' = false from by decide] :
          ¬ (isAsciiAlpha '/' && x == ':') = true)]
      dsimp only
      have hsg : slashGroups ('/' :: (x :: (xs ++ (renderPath comps' ++ tail)))) =
          (comps'.length + 1, (x :: xs).length + 1 + (renderPath comps').length) := by
        simp only [slashGroups]
        rw [if_pos (by decide : isSlashChar '/' = true)]
        rw [← List.cons_append, ← List.append_assoc, List.append_assoc]
        rw [pathComp_comp (x :: xs) _ 0 hall]
        rw [pathComp_render comps' tail (0 + (x :: xs).length) hcomps' htail
          (by simp)]
        simp only [Prod.mk.injEq]
        exact ⟨trivial, by omega⟩
      rw [hsg]
      rw [if_pos (by simpa using h2)]
      refine congrArg some ?_
      simp [List.length_cons, List.length_append]
      omega

/-- Inputs of the form `message ++ /path/components ++ :line:col` all
canonicalize to the continuation of `message ++ "  "`, independently of the
path components and of the line/column digits. -/
theorem sig_pathInput {pre : String} {comps : List (List Char)}
    {ln cl : List Char}
    (hpre : pre.toList.all plainChar = true)
    (hhex : noLongHexRun pre.toList = true)
    (hlast : pre.toList.getLast? = some ' ')
    (hhead : (match pre.toList.head? with
              | some e => !isSpaceChar e
              | none => true) = true)
    (hcomps : ∀ comp ∈ comps, comp ≠ [] ∧ comp.all isPathChar = true)
    (hc2 : 2 ≤ comps.length)
    (hln : ln ≠ []) (hlnd : ln.all isDigitChar = true)
    (hcl : cl ≠ []) (hcld : cl.all isDigitChar = true) :
    generateErrorSignature (pathInput pre comps ln cl) =
      sigFinish (pre.toList ++ [' ', ' ']) := by
  have hPne : pre.toList ≠ [] := by
    intro h
    rw [h] at hlast
    simp at hlast
  obtain ⟨p0, P', hP⟩ : ∃ p0 P', pre.toList = p0 :: P' := by
    cases hPc : pre.toList with
    | nil => exact absurd hPc hPne
    | cons a t => exact ⟨a, t, rfl⟩
  have hlnD := List.all_eq_true.mp hlnd
  have hclD := List.all_eq_true.mp hcld
  have hplainP := List.all_eq_true.mp hpre
  have hlnz : ¬ ln.length = 0 := by
    cases ln with
    | nil => exact absurd rfl hln
    | cons _ _ => simp
  have hclz : ¬ cl.length = 0 := by
    cases cl with
    | nil => exact absurd rfl hcl
    | cons _ _ => simp
  have hTL : (pathInput pre comps ln cl).toList =
      pre.toList ++ (renderPath comps ++ ((':' :: ln) ++ (':' :: cl))) := by
    show ((pre.toList ++ renderPath comps) ++ (':' :: ln)) ++ (':' :: cl) =
      pre.toList ++ (renderPath comps ++ ((':' :: ln) ++ (':' :: cl)))
    simp [List.append_assoc]
  have hne : pathInput pre comps ln cl ≠ "" := by
    intro h
    have hdata : ((pre.toList ++ renderPath comps) ++ (':' :: ln)) ++ (':' :: cl)
        = ([] : List Char) := congrArg String.data h
    rcases List.append_eq_nil.mp hdata with ⟨h1, _⟩
    rcases List.append_eq_nil.mp h1 with ⟨h2, _⟩
    rcases List.append_eq_nil.mp h2 with ⟨h3, _⟩
    exact hPne h3
  have hmemL : ∀ e ∈ pre.toList ++
      (renderPath comps ++ ((':' :: ln) ++ (':' :: cl))), (e != '\n') = true := by
    intro e he
    rcases List.mem_append.mp he with h | h
    · exact plain_not_newline (hplainP e h)
    rcases List.mem_append.mp h with h | h
    · rcases mem_renderPath h with h' | ⟨comp, hcm, hec⟩
      · rw [h']; decide
      · exact isPathChar_not_newline
          (List.all_eq_true.mp (hcomps comp hcm).2 e hec)
    rcases List.mem_append.mp h with h | h <;> rcases List.mem_cons.mp h with h' | h'
    · rw [h']; decide
    · exact digit_not_newline (hlnD e h')
    · rw [h']; decide
    · exact digit_not_newline (hclD e h')
  have hheadL : ∀ e, (pre.toList ++
      (renderPath comps ++ ((':' :: ln) ++ (':' :: cl)))).head? = some e →
      isSpaceChar e = false := by
    intro e he
    rw [hP] at he hhead
    rw [List.cons_append] at he
    have hpe := Option.some.inj he
    subst hpe
    simp only [List.head?_cons] at hhead
    simpa using hhead
  have hclsome : ∃ v, cl.getLast? = some v :=
    Option.isSome_iff_exists.mp (List.getLast?_isSome.mpr hcl)
  obtain ⟨v, hv⟩ := hclsome
  have hvmem : v ∈ cl := by
    obtain ⟨l', hl'⟩ := List.getLast?_eq_some_iff.mp hv
    rw [hl']
    exact List.mem_append_right l' (List.mem_cons_self _ _)
  have hvD : ((':' :: cl)).getLast? = some v := by
    rw [show (':' :: cl) = [':'] ++ cl from rfl, List.getLast?_append, hv]
    rfl
  have hLlast : (pre.toList ++
      (renderPath comps ++ ((':' :: ln) ++ (':' :: cl)))).getLast? = some v := by
    rw [List.getLast?_append, List.getLast?_append, List.getLast?_append, hvD]
    rfl
  have hlastL : ∀ e, (pre.toList ++
      (renderPath comps ++ ((':' :: ln) ++ (':' :: cl)))).getLast? = some e →
      isSpaceChar e = false := by
    intro e he
    have hev := Option.some.inj (hLlast.symm.trans he)
    subst hev
    exact digit_not_space (hclD v hvmem)
  have htailLC : ∀ e, ((':' :: ln) ++ (':' :: cl)).head? = some e →
      isPathChar e = false ∧ isSlashChar e = false := by
    intro e he
    rw [List.cons_append] at he
    have h' := Option.some.inj he
    subst h'
    exact ⟨by decide, by decide⟩
  have hwalk1 : ∀ (a : List Char) (c0 : Char) (b : List Char),
      pre.toList = a ++ c0 :: b → ∀ (pv : Option Char),
      (fun (_ : Option Char) => matchPath) pv
        (c0 :: (b ++ (renderPath comps ++ ((':' :: ln) ++ (':' :: cl))))) = none := by
    intro a c0 b hab pv
    have hcb := all_split hpre hab
    cases b with
    | nil =>
      have hc1 : c0 = ' ' := by
        rw [hab, List.getLast?_concat] at hlast
        exact Option.some.inj hlast
      subst hc1
      rw [List.nil_append]
      exact matchPath_none_head _ (by decide) (by decide)
    | cons d b' =>
      rw [List.cons_append]
      refine matchPath_none_cons2 (plain_not_slash hcb.1) ?_
      intro hdr
      have hd : d = ':' := by
        rw [Bool.and_eq_true] at hdr
        simpa using hdr.2
      cases b' with
      | nil =>
        exfalso
        rw [hab] at hlast
        rw [show a ++ c0 :: d :: ([] : List Char) = (a ++ [c0]) ++ [d] by simp]
          at hlast
        rw [List.getLast?_concat] at hlast
        have h0 := Option.some.inj hlast
        rw [hd] at h0
        exact absurd h0 (by decide)
      | cons e b'' =>
        have he : plainChar e = true := by
          have h0 := hcb.2
          simp only [List.all_cons, Bool.and_eq_true] at h0
          exact h0.2.1
        exact ⟨e, b'' ++ (renderPath comps ++ ((':' :: ln) ++ (':' :: cl))),
          by rw [List.cons_append], plain_not_slash he⟩
  have hLCnoslash : ∀ e ∈ ((':' :: ln) ++ (':' :: cl)), isSlashChar e = false := by
    intro e he
    rcases List.mem_append.mp he with h | h <;> rcases List.mem_cons.mp h with h' | h'
    · rw [h']; decide
    · exact digit_not_slash (hlnD e h')
    · rw [h']; decide
    · exact digit_not_slash (hclD e h')
  have hlcid : ∀ (a : List Char) (c0 : Char) (b : List Char),
      ((':' :: ln) ++ (':' :: cl)) = a ++ c0 :: b → ∀ (pv : Option Char),
        (fun (_ : Option Char) => matchPath) pv (c0 :: b) = none := by
    intro a c0 b hab pv
    exact matchPath_none_of_no_slash fun e he =>
      hLCnoslash e (by rw [hab]; exact List.mem_append_right a he)
  obtain ⟨x, xs, comps', hcE⟩ : ∃ x xs comps', comps = (x :: xs) :: comps' := by
    cases comps with
    | nil => simp at hc2
    | cons comp1 comps' =>
      cases hcp : comp1 with
      | nil => exact absurd hcp (hcomps comp1 (List.mem_cons_self _ _)).1
      | cons x xs => exact ⟨x, xs, comps', rfl⟩
  rw [hcE] at hcomps hc2 hTL hne hmemL hheadL hlastL hwalk1 ⊢
  have hm1 : matchPath (renderPath ((x :: xs) :: comps') ++
      ((':' :: ln) ++ (':' :: cl))) =
      some (renderPath ((x :: xs) :: comps')).length :=
    matchPath_render hcomps hc2 htailLC
  have hm1' : matchPath ('/' :: (((x :: xs) ++ renderPath comps') ++
      ((':' :: ln) ++ (':' :: cl)))) =
      some (renderPath ((x :: xs) :: comps')).length := hm1
  have ep1 : stripScan (fun _ => matchPath)
      (pre.toList ++ (renderPath ((x :: xs) :: comps') ++
        ((':' :: ln) ++ (':' :: cl)))) =
      pre.toList ++ (' ' :: ((':' :: ln) ++ (':' :: cl))) := by
    unfold stripScan
    rw [stripGo_append_none (fun _ => matchPath) pre.toList none _ hwalk1]
    refine congrArg (pre.toList ++ ·) ?_
    rw [show renderPath ((x :: xs) :: comps') ++ ((':' :: ln) ++ (':' :: cl)) =
      '/' :: (((x :: xs) ++ renderPath comps') ++ ((':' :: ln) ++ (':' :: cl)))
      from rfl]
    simp only [stripGo]
    simp only [hm1']
    refine congrArg (List.cons ' ') ?_
    have hlen1 : (renderPath ((x :: xs) :: comps')).length - 1 =
        ((x :: xs) ++ renderPath comps').length := by
      rw [show renderPath ((x :: xs) :: comps') =
        '/' :: ((x :: xs) ++ renderPath comps') from rfl, List.length_cons]
      omega
    rw [hlen1, stripGo_skip]
    exact stripGo_id _ _ _ hlcid
  have hplainP1 : (pre.toList ++ [' ']).all plainChar = true := by
    rw [List.all_append, Bool.and_eq_true]
    exact ⟨hpre, by decide⟩
  have hwalk2 : ∀ (a : List Char) (c0 : Char) (b : List Char),
      pre.toList ++ [' '] = a ++ c0 :: b → ∀ (pv : Option Char),
      (fun (_ : Option Char) => matchLineCol) pv
        (c0 :: (b ++ ((':' :: ln) ++ (':' :: cl)))) = none := by
    intro a c0 b hab pv
    refine matchLineCol_none_head fun hc0 e he => ?_
    cases b with
    | nil =>
      exfalso
      have hgl : (pre.toList ++ [' ']).getLast? = some c0 := by
        rw [hab]
        exact List.getLast?_concat a
      rw [List.getLast?_concat] at hgl
      have h0 := Option.some.inj hgl
      rw [hc0] at h0
      exact absurd h0 (by decide)
    | cons d b' =>
      rw [List.cons_append] at he
      have hde := Option.some.inj he
      subst hde
      have hcb := all_split hplainP1 hab
      have hd : plainChar d = true := by
        have h0 := hcb.2
        simp only [List.all_cons, Bool.and_eq_true] at h0
        exact h0.1
      exact plain_not_digit hd
  have hm2 : matchLineCol (':' :: (ln ++ ':' :: cl)) =
      some (1 + ln.length + 1 + cl.length) := by
    have hd1 : countWhile isDigitChar (ln ++ ':' :: cl) = ln.length :=
      countWhile_all_stop (by
        intro e he
        have h0 := Option.some.inj he
        subst h0
        decide) hlnd
    simp only [matchLineCol]
    rw [if_pos (by decide : (':' == ':') = true)]
    rw [hd1, if_neg hlnz, List.drop_left]
    dsimp only
    rw [if_pos (by decide : (':' == ':') = true)]
    rw [countWhile_of_all hcld, if_neg hclz]
  have ep2 : stripScan (fun _ => matchLineCol)
      (pre.toList ++ (' ' :: ((':' :: ln) ++ (':' :: cl)))) =
      pre.toList ++ [' ', ' '] := by
    unfold stripScan
    rw [show pre.toList ++ (' ' :: ((':' :: ln) ++ (':' :: cl))) =
      (pre.toList ++ [' ']) ++ ((':' :: ln) ++ (':' :: cl)) by simp]
    rw [stripGo_append_none (fun _ => matchLineCol) (pre.toList ++ [' ']) none _
      hwalk2]
    rw [show ((':' :: ln) ++ (':' :: cl)) = ':' :: (ln ++ ':' :: cl) from rfl]
    simp only [stripGo]
    simp only [hm2]
    have hsk : 1 + ln.length + 1 + cl.length - 1 = (ln ++ ':' :: cl).length := by
      simp only [List.length_append, List.length_cons]
      omega
    rw [hsk, stripGo_skip_all]
    simp
  have hz1 : (pre.toList ++ [' ', ' ']).all plainChar = true := by
    rw [List.all_append, Bool.and_eq_true]
    exact ⟨hpre, by decide⟩
  have hz2 : noLongHexRun (pre.toList ++ [' ', ' ']) = true :=
    noLongHexRun_append (by
      intro e he
      rcases List.mem_cons.mp he with h | h
      · rw [h]; decide
      · rcases List.mem_cons.mp h with h' | h'
        · rw [h']; decide
        · exact absurd h' (List.not_mem_nil e)) hhex
  have estrip : stripPatterns
      (pre.toList ++ (renderPath ((x :: xs) :: comps') ++
        ((':' :: ln) ++ (':' :: cl)))) =
      pre.toList ++ [' ', ' '] := by
    unfold stripPatterns
    dsimp only
    rw [ep1, ep2]
    exact strip38_id hz1 hz2
  unfold generateErrorSignature
  rw [if_neg hne]
  dsimp only
  rw [hTL, takeFirstLine_id hmemL, trimChars_id hheadL hlastL, estrip]
  unfold sigFinish
  rfl

/-- C5: the idempotence half of the claim is false as stated for arbitrary
inputs.  Stripping two long quoted literals re-pairs the remaining quote
characters: the output of `generateErrorSignature` on this input again
contains a long quoted run, so a second application strips further and the
two results differ. -/
theorem sig_idempotence_counterexample :
    generateErrorSignature (generateErrorSignature quoteRepairInput) ≠
      generateErrorSignature quoteRepairInput := by decide

/-- C5 (amended): `generateErrorSignature` is idempotent on canonical-form
outputs — whenever the first application yields a string of plain characters
(no path separators, digits, dashes or quotes, whitespace only as single
interior spaces), with no run of 16 hex characters, non-whitespace edges and
length in `[5, 200)`, a second application returns it unchanged — and it is
path/line-invariant: two inputs `msg ++ path ++ ":line:col"` with the same
plain message `msg` ending in a space differ only in an absolute path of at
least two components and in the line/column digits, and they canonicalize to
the same signature. -/
theorem sig_canonical_idem_path_invariant :
    (∀ x : String,
      (generateErrorSignature x).toList.all plainChar = true →
      noLongHexRun (generateErrorSignature x).toList = true →
      noAdjSpace (generateErrorSignature x).toList = true →
      edgeNonSpace (generateErrorSignature x).toList = true →
      (generateErrorSignature x).toList.length < 200 →
      5 ≤ (generateErrorSignature x).toList.length →
      generateErrorSignature (generateErrorSignature x) =
        generateErrorSignature x) ∧
    (∀ (pre : String) (comps₁ comps₂ : List (List Char))
        (ln₁ cl₁ ln₂ cl₂ : List Char),
      pre.toList.all plainChar = true →
      noLongHexRun pre.toList = true →
      pre.toList.getLast? = some ' ' →
      (match pre.toList.head? with
       | some e => !isSpaceChar e
       | none => true) = true →
      (∀ comp ∈ comps₁, comp ≠ [] ∧ comp.all isPathChar = true) →
      2 ≤ comps₁.length →
      (∀ comp ∈ comps₂, comp ≠ [] ∧ comp.all isPathChar = true) →
      2 ≤ comps₂.length →
      ln₁ ≠ [] → ln₁.all isDigitChar = true →
      cl₁ ≠ [] → cl₁.all isDigitChar = true →
      ln₂ ≠ [] → ln₂.all isDigitChar = true →
      cl₂ ≠ [] → cl₂.all isDigitChar = true →
      generateErrorSignature (pathInput pre comps₁ ln₁ cl₁) =
        generateErrorSignature (pathInput pre comps₂ ln₂ cl₂)) := by
  constructor
  · intro x h1 h2 h3 h4 h5 h6
    exact sig_fixed h1 h2 h3 h4 h5 h6
  · intro pre comps₁ comps₂ ln₁ cl₁ ln₂ cl₂ hpre hhex hlast hhead
      hcomps₁ hc₁ hcomps₂ hc₂ hln₁ hlnd₁ hcl₁ hcld₁ hln₂ hlnd₂ hcl₂ hcld₂
    rw [sig_pathInput hpre hhex hlast hhead hcomps₁ hc₁ hln₁ hlnd₁ hcl₁ hcld₁,
      sig_pathInput hpre hhex hlast hhead hcomps₂ hc₂ hln₂ hlnd₂ hcl₂ hcld₂]

/-- Witness for C5 (amended): a canonical signature is a fixed point, and two
concrete inputs differing only in path and line:col share one signature. -/
theorem sig_canonical_idem_path_invariant_witness :
    generateErrorSignature (generateErrorSignature
        "TypeError: Cannot read property of undefined") =
      generateErrorSignature "TypeError: Cannot read property of undefined" ∧
    generateErrorSignature (pathInput "Error: boom at "
        [['s', 'r', 'c'], ['a', '.', 't', 's']] ['1'] ['2']) =
      generateErrorSignature (pathInput "Error: boom at "
        [['l', 'i', 'b'], ['u', 't', 'i', 'l', 's'], ['b', '.', 'j', 's']]
        ['1', '0'] ['7']) :=
  ⟨sig_canonical_idem_path_invariant.1
      "TypeError: Cannot read property of undefined"
      (by decide) (by decide) (by decide) (by decide) (by decide) (by decide),
    sig_canonical_idem_path_invariant.2 "Error: boom at "
      [['s', 'r', 'c'], ['a', '.', 't', 's']]
      [['l', 'i', 'b'], ['u', 't', 'i', 'l', 's'], ['b', '.', 'j', 's']]
      ['1'] ['2'] ['1', '0'] ['7']
      (by decide) (by decide) (by decide) (by decide) (by decide) (by decide)
      (by decide) (by decide) (by decide) (by decide) (by decide) (by decide)
      (by decide) (by decide) (by decide) (by decide)⟩

end Wiki
